import Mathlib

/-
Shallow embedding of the physics and shot controller of the billiards game
(src/game_cpp/game.cpp).  Float arithmetic of the source is modelled by exact
real arithmetic; the global mutable arrays of the source become a GameState
record threaded through the operations.  Scene/engine calls (mesh placement,
progress-bar rendering, FPS) are external side effects without influence on
the physics state and are dropped.
-/

noncomputable section

open scoped Classical

/-- Basic 2D float vector of the source (class Vector2, game.cpp lines 17-102). -/
structure Vector2 where
  x : ℝ
  y : ℝ

attribute [ext] Vector2

/-- Vector2 operator - (componentwise difference). -/
instance : Sub Vector2 := ⟨fun a b => ⟨a.x - b.x, a.y - b.y⟩⟩

/-- Vector2 operator + (componentwise sum). -/
instance : Add Vector2 := ⟨fun a b => ⟨a.x + b.x, a.y + b.y⟩⟩

/-- Vector2 operator * (float scale): scales both components. -/
instance : HMul Vector2 ℝ Vector2 := ⟨fun v s => ⟨v.x * s, v.y * s⟩⟩

theorem Vector2.sub_def (a b : Vector2) : a - b = ⟨a.x - b.x, a.y - b.y⟩ := rfl

theorem Vector2.add_def (a b : Vector2) : a + b = ⟨a.x + b.x, a.y + b.y⟩ := rfl

theorem Vector2.smul_def (v : Vector2) (s : ℝ) : v * s = ⟨v.x * s, v.y * s⟩ := rfl

/-- Vector2 operator * (Vector2): the dot product. -/
def Vector2.dot (a b : Vector2) : ℝ := a.x * b.x + a.y * b.y

/-- Vector2::norm — the squared length. -/
def Vector2.norm (v : Vector2) : ℝ := v.x * v.x + v.y * v.y

/-- Vector2::length — square root of norm. -/
def Vector2.length (v : Vector2) : ℝ := Real.sqrt v.norm

/-- Vector2::normolize — divides both components by the length (sic: the
source spells it "normolize"; division by a zero length is total here,
following the 0-division convention of ℝ in Lean, where C++ floats give NaN). -/
def Vector2.normolize (v : Vector2) : Vector2 := ⟨v.x / v.length, v.y / v.length⟩

namespace Params

/-- Params::System::accurance. -/
def accurance : ℝ := 0.01

/-- Params::Table::width. -/
def width : ℝ := 15

/-- Params::Table::height. -/
def height : ℝ := 8

/-- Params::Table::pocketRadius. -/
def pocketRadius : ℝ := 0.4

/-- Params::Ball::radius. -/
def ballRadius : ℝ := 0.3

/-- Params::Shot::chargeTime. -/
def chargeTime : ℝ := 1

/-- Params::Table::pocketsPositions (six pockets). -/
def pocketsPositions : List Vector2 :=
  [⟨-0.5 * width, -0.5 * height⟩, ⟨0, -0.5 * height⟩, ⟨0.5 * width, -0.5 * height⟩,
   ⟨-0.5 * width, 0.5 * height⟩, ⟨0, 0.5 * height⟩, ⟨0.5 * width, 0.5 * height⟩]

/-- Params::Table::ballsPositions (seven balls, cue ball first) as a list. -/
def ballsPositionsList : List Vector2 :=
  [⟨-0.3 * width, 0⟩,
   ⟨0.2 * width, 0⟩, ⟨0.25 * width, 0.05 * height⟩, ⟨0.25 * width, -0.05 * height⟩,
   ⟨0.3 * width, 0.1 * height⟩, ⟨0.3 * width, 0⟩, ⟨0.3 * width, -0.1 * height⟩]

/-- Params::Table::ballsPositions indexed by ball id. -/
def ballsPositions (i : Fin 7) : Vector2 :=
  ballsPositionsList.get (Fin.cast rfl i)

end Params

namespace Game

/-- Game::infinity = 2 * (height + width) = 46, the pocketed-ball sentinel coordinate. -/
def infinity : ℝ := 2 * (Params.height + Params.width)

/-- Game::impulse. -/
def impulse : ℝ := 6

/-- Game::friction. -/
def friction : ℝ := 0.03

/-- The mutable globals of namespace Game gathered in one state record:
isChargingShot, shotChargeProgress, ballPositions, ballVelocities. -/
structure GameState where
  isChargingShot : Bool
  shotChargeProgress : ℝ
  ballPositions : Fin 7 → Vector2
  ballVelocities : Fin 7 → Vector2

/-- The state right after program start and Game::init: charge state at its
initializers, positions from the parameter template, velocities zeroed. -/
def initState : GameState :=
  { isChargingShot := false
    shotChargeProgress := 0
    ballPositions := Params.ballsPositions
    ballVelocities := fun _ => ⟨0, 0⟩ }

/-- One iteration of the search loop in Game::findClosestBall: the
accumulator keeps the best (index, distance) pair so far. -/
def findClosestStep (pos : Fin 7 → Vector2) (ballEndPosition : Vector2) (subject : Fin 7)
    (acc : Fin 7 × ℝ) (i : Fin 7) : Fin 7 × ℝ :=
  if i = subject then acc
  else if (ballEndPosition - pos i).length < 2 * Params.ballRadius then
    if (pos subject - pos i).length < acc.2 then (i, (pos subject - pos i).length) else acc
  else acc

/-- Ball indices 0..6 in the order all source loops visit them. -/
def allIdx : List (Fin 7) := [0, 1, 2, 3, 4, 5, 6]

/-- Game::findClosestBall: index of the closest other ball whose distance to
the candidate end position is below 2r; the subject's own index if none. -/
def findClosestBall (pos : Fin 7 → Vector2) (ballEndPosition : Vector2) (subject : Fin 7) :
    Fin 7 :=
  (allIdx.foldl (findClosestStep pos ballEndPosition subject) (subject, infinity)).1

/-- Game::recalculateVelocities: elastic exchange of the normal velocity
components of the colliding pair.  The local variable tan = (dir.y, dir.x) of
the source is reproduced although the source never reads it. -/
def recalculateVelocities (pos vel : Fin 7 → Vector2) (subject target : Fin 7) :
    Fin 7 → Vector2 :=
  let dir := (pos target - pos subject).normolize
  let tan : Vector2 := ⟨dir.y, dir.x⟩
  let dirSubjectVel := (vel subject).dot dir
  let dirTargetVel := (vel target).dot dir
  let tanSubjectVel := vel subject - dir * dirSubjectVel
  let tanTargetVel := vel target - dir * dirTargetVel
  Function.update (Function.update vel subject (tanSubjectVel + dir * dirTargetVel))
    target (tanTargetVel + dir * dirSubjectVel)

/-- Game::calculateTimeConflict. -/
def calculateTimeConflict (distance velocityModule : ℝ) : ℝ :=
  (distance - 2 * Params.ballRadius) / velocityModule

/-- Game::inPocket: some pocket position is within pocketRadius + radius/4 of
the ball end position (loop with early return true). -/
def inPocket (ballEndPos : Vector2) : Prop :=
  ∃ pocketPos ∈ Params.pocketsPositions,
    (ballEndPos - pocketPos).length ≤ Params.pocketRadius + Params.ballRadius / 4

/-- Body of the loop in Game::reduceVelocities for one velocity: friction
pulls each component toward zero, clamped at sign crossings; velocities below
the accuracy threshold are untouched. -/
def reduceVelocity (dt : ℝ) (velocity : Vector2) : Vector2 :=
  if velocity.length < Params.accurance then velocity
  else
    let isVxPositive := 0 ≤ velocity.x
    let isVyPositive := 0 ≤ velocity.y
    let x1 := if isVxPositive then velocity.x - friction * dt * 9.81
      else velocity.x + friction * dt * 9.81
    let y1 := if isVyPositive then velocity.y - friction * dt * 9.81
      else velocity.y + friction * dt * 9.81
    let x2 := if (x1 < 0 ∧ isVxPositive) ∨ (0 < x1 ∧ ¬isVxPositive) then 0 else x1
    let y2 := if (y1 < 0 ∧ isVyPositive) ∨ (0 < y1 ∧ ¬isVyPositive) then 0 else y1
    ⟨x2, y2⟩

/-- Game::reduceVelocities applies the friction step to all seven velocities. -/
def reduceVelocities (dt : ℝ) (vel : Fin 7 → Vector2) : Fin 7 → Vector2 :=
  fun i => reduceVelocity dt (vel i)

/-- The x-axis band test of Game::isBorderCollesion. -/
def borderBandX (ballPos : Vector2) : Prop :=
  |(|ballPos.x| - Params.width / 2)| ≤ Params.ballRadius + Params.accurance

/-- The y-axis band test of Game::isBorderCollesion. -/
def borderBandY (ballPos : Vector2) : Prop :=
  |(|ballPos.y| - Params.height / 2)| ≤ Params.ballRadius + Params.accurance

/-- Velocity effect of Game::isBorderCollesion: each component is negated
exactly when its band test fires. -/
def isBorderCollesionVel (ballPos v : Vector2) : Vector2 :=
  ⟨if borderBandX ballPos then -v.x else v.x, if borderBandY ballPos then -v.y else v.y⟩

/-- Return value of Game::isBorderCollesion: true iff some band test fired. -/
def isBorderCollesionHit (ballPos : Vector2) : Prop :=
  borderBandX ballPos ∨ borderBandY ballPos

/-- Game::isFreeze: the source loop returns false as soon as it meets a ball
with length below accurance, and true only when the loop finishes — i.e. true
iff no ball is below the threshold. -/
def isFreeze (vel : Fin 7 → Vector2) : Prop :=
  ∀ i : Fin 7, ¬((vel i).length < Params.accurance)

/-- Mutable state of one pass of the loop in Game::physicLoop: current
positions and velocities, the undoneBalls skip set, and whether the early
return of the cue-pocket branch already fired. -/
structure LoopState where
  pos : Fin 7 → Vector2
  vel : Fin 7 → Vector2
  skip : List (Fin 7)
  returned : Bool

/-- The candidate end position p + v * dt computed at the top of the loop
body in Game::physicLoop. -/
def ballEndPos (dt : ℝ) (p v : Vector2) : Vector2 :=
  ⟨p.x + v.x * dt, p.y + v.y * dt⟩

/-- One iteration of the loop in Game::physicLoop for ball i: skip slow or
already-resolved balls, then pocket test (cue pocket aborts the tick with a
full rack reset), border test, closest-ball search, and pair resolution. -/
def processBall (dt : ℝ) (st : LoopState) (i : Fin 7) : LoopState :=
  if st.returned then st
  else if (st.vel i).length ≤ Params.accurance ∨ i ∈ st.skip then st
  else
    let endPos := ballEndPos dt (st.pos i) (st.vel i)
    if inPocket endPos then
      if i = 0 then
        { pos := Params.ballsPositions, vel := fun _ => ⟨0, 0⟩, skip := st.skip,
          returned := true }
      else
        { st with pos := Function.update st.pos i ⟨infinity, infinity⟩,
                  vel := Function.update st.vel i ⟨0, 0⟩ }
    else if isBorderCollesionHit endPos then
      { st with vel := Function.update st.vel i (isBorderCollesionVel endPos (st.vel i)) }
    else
      let j := findClosestBall st.pos endPos i
      if j = i then
        { st with pos := Function.update st.pos i endPos }
      else
        let dtau := calculateTimeConflict ((st.pos i - st.pos j).length) ((st.vel i).length)
        let conflictSubjectPos : Vector2 :=
          ⟨(st.pos i).x + (st.vel i).x * dtau, (st.pos i).y + (st.vel i).y * dtau⟩
        let vel' := recalculateVelocities st.pos st.vel i j
        let pos' := Function.update (Function.update st.pos i
            ⟨conflictSubjectPos.x + (vel' i).x * (dt - dtau),
             conflictSubjectPos.y + (vel' i).y * (dt - dtau)⟩) j
            ⟨(st.pos j).x + (vel' j).x * (dt - dtau),
             (st.pos j).y + (vel' j).y * (dt - dtau)⟩
        { pos := pos', vel := vel', skip := j :: i :: st.skip, returned := st.returned }

/-- The local variable st of Game::physicLoop after the ball loop: the fold
of processBall over indices 0..6 from the incoming state with an empty skip
set. -/
def loopResult (dt : ℝ) (s : GameState) : LoopState :=
  allIdx.foldl (processBall dt)
    { pos := s.ballPositions, vel := s.ballVelocities, skip := [], returned := false }

/-- Game::physicLoop: early return when isFreeze holds, otherwise the ball
loop over indices 0..6 followed by the friction pass (skipped when the loop
returned early through the cue-pocket rack reset). -/
def physicLoop (dt : ℝ) (s : GameState) : GameState :=
  if isFreeze s.ballVelocities then s
  else if (loopResult dt s).returned then
    { s with ballPositions := (loopResult dt s).pos,
             ballVelocities := (loopResult dt s).vel }
  else
    { s with ballPositions := (loopResult dt s).pos,
             ballVelocities := reduceVelocities dt (loopResult dt s).vel }

/-- Game::update: the physics loop, then charge accumulation clamped at 1. -/
def update (dt : ℝ) (s : GameState) : GameState :=
  if (physicLoop dt s).isChargingShot then
    { isChargingShot := (physicLoop dt s).isChargingShot,
      shotChargeProgress := min ((physicLoop dt s).shotChargeProgress + dt / Params.chargeTime) 1,
      ballPositions := (physicLoop dt s).ballPositions,
      ballVelocities := (physicLoop dt s).ballVelocities }
  else physicLoop dt s

/-- Game::mouseButtonPressed: only starts charging. -/
def mouseButtonPressed (x y : ℝ) (s : GameState) : GameState :=
  { s with isChargingShot := true }

/-- Game::mouseButtonReleased: when the cue ball is slower than 0.01 its
velocity becomes the normalized direction to the release point scaled by
impulse times the charge progress; in all cases charging stops and the
progress resets. -/
def mouseButtonReleased (x y : ℝ) (s : GameState) : GameState :=
  { s with
    ballVelocities :=
      if (s.ballVelocities 0).length < 0.01 then
        Function.update s.ballVelocities 0
          ((Vector2.normolize ⟨x - (s.ballPositions 0).x, y - (s.ballPositions 0).y⟩) *
            (impulse * s.shotChargeProgress))
      else s.ballVelocities,
    isChargingShot := false, shotChargeProgress := 0 }

/-- States reachable from program start through the game surface exposed to
the engine, with nonnegative tick lengths. -/
inductive Reachable : GameState → Prop
  | start : Reachable initState
  | tick (s : GameState) (dt : ℝ) (hdt : 0 ≤ dt) (hs : Reachable s) : Reachable (update dt s)
  | press (s : GameState) (x y : ℝ) (hs : Reachable s) : Reachable (mouseButtonPressed x y s)
  | release (s : GameState) (x y : ℝ) (hs : Reachable s) :
      Reachable (mouseButtonReleased x y s)

end Game

/-
Basic facts about Vector2 length comparisons, used to evaluate the real
square roots the source compares against thresholds.
-/

theorem Vector2.norm_nonneg (v : Vector2) : 0 ≤ v.norm := by
  have hx := mul_self_nonneg v.x
  have hy := mul_self_nonneg v.y
  unfold Vector2.norm
  linarith

theorem Vector2.length_lt_iff (v : Vector2) {c : ℝ} (hc : 0 < c) :
    v.length < c ↔ v.norm < c ^ 2 :=
  Real.sqrt_lt' hc

theorem Vector2.length_le_iff (v : Vector2) {c : ℝ} (hc : 0 ≤ c) :
    v.length ≤ c ↔ v.norm ≤ c ^ 2 := by
  unfold Vector2.length
  rw [Real.sqrt_le_iff]
  exact ⟨fun h => h.2, fun h => ⟨hc, h⟩⟩

theorem Vector2.length_nonneg (v : Vector2) : 0 ≤ v.length := by
  unfold Vector2.length
  exact Real.sqrt_nonneg _

theorem Vector2.le_length_iff (v : Vector2) {c : ℝ} (hc : 0 ≤ c) :
    c ≤ v.length ↔ c ^ 2 ≤ v.norm := by
  rcases lt_or_eq_of_le hc with h | h
  · rw [← not_lt, ← not_lt, not_iff_not]
    exact v.length_lt_iff h
  · subst h
    constructor
    · intro _; simpa using v.norm_nonneg
    · intro _; exact v.length_nonneg

theorem Vector2.length_eq (v : Vector2) {c : ℝ} (hc : 0 ≤ c) (h : v.norm = c * c) :
    v.length = c := by
  unfold Vector2.length
  rw [h, Real.sqrt_mul_self hc]

/-
Shared structural lemmas about the physics loop.
-/

theorem Game.processBall_skip (dt : ℝ) (st : Game.LoopState) (i : Fin 7)
    (h : (st.vel i).length ≤ Params.accurance) : Game.processBall dt st i = st := by
  by_cases hr : st.returned
  · simp [Game.processBall, hr]
  · simp [Game.processBall, hr, h]

theorem Game.processBall_returned (dt : ℝ) (st : Game.LoopState) (i : Fin 7)
    (h : st.returned = true) : Game.processBall dt st i = st := by
  simp [Game.processBall, h]

theorem Game.foldl_processBall_slow (dt : ℝ) (l : List (Fin 7)) (st : Game.LoopState)
    (h : ∀ i, (st.vel i).length ≤ Params.accurance) :
    l.foldl (Game.processBall dt) st = st := by
  induction l with
  | nil => rfl
  | cons a t ih => rw [List.foldl_cons, Game.processBall_skip dt st a (h a)]; exact ih

theorem Game.foldl_processBall_returned (dt : ℝ) (l : List (Fin 7)) (st : Game.LoopState)
    (h : st.returned = true) :
    l.foldl (Game.processBall dt) st = st := by
  induction l with
  | nil => rfl
  | cons a t ih => rw [List.foldl_cons, Game.processBall_returned dt st a h]; exact ih

theorem Game.reduceVelocity_slow (dt : ℝ) (v : Vector2) (h : v.length < Params.accurance) :
    Game.reduceVelocity dt v = v := by
  simp [Game.reduceVelocity, h]

theorem Game.physicLoop_keeps_charge (dt : ℝ) (s : Game.GameState) :
    (Game.physicLoop dt s).isChargingShot = s.isChargingShot ∧
    (Game.physicLoop dt s).shotChargeProgress = s.shotChargeProgress := by
  unfold Game.physicLoop
  split
  · exact ⟨rfl, rfl⟩
  · split <;> exact ⟨rfl, rfl⟩

theorem Game.update_balls (dt : ℝ) (s : Game.GameState) :
    (Game.update dt s).ballPositions = (Game.physicLoop dt s).ballPositions ∧
    (Game.update dt s).ballVelocities = (Game.physicLoop dt s).ballVelocities := by
  unfold Game.update
  split <;> exact ⟨rfl, rfl⟩

theorem Game.update_progress (dt : ℝ) (s : Game.GameState) :
    (Game.update dt s).shotChargeProgress =
      if s.isChargingShot then min (s.shotChargeProgress + dt / Params.chargeTime) 1
      else s.shotChargeProgress := by
  rcases Game.physicLoop_keeps_charge dt s with ⟨hc, hp⟩
  unfold Game.update
  rw [hc, hp]
  by_cases h : s.isChargingShot
  · rw [if_pos h, if_pos h]
  · rw [if_neg h, if_neg h]
    exact hp

theorem Game.update_all_slow (s : Game.GameState) (dt : ℝ)
    (h : ∀ i, (s.ballVelocities i).length < Params.accurance) :
    (Game.update dt s).ballPositions = s.ballPositions ∧
    (Game.update dt s).ballVelocities = s.ballVelocities := by
  have hnf : ¬ Game.isFreeze s.ballVelocities := fun hf => hf 0 (h 0)
  have hfold : Game.loopResult dt s =
      { pos := s.ballPositions, vel := s.ballVelocities, skip := [], returned := false } :=
    Game.foldl_processBall_slow dt _ _ (fun i => (h i).le)
  have hred : Game.reduceVelocities dt s.ballVelocities = s.ballVelocities := by
    funext i
    exact Game.reduceVelocity_slow dt _ (h i)
  rcases Game.update_balls dt s with ⟨hbp, hbv⟩
  rw [hbp, hbv]
  unfold Game.physicLoop
  rw [if_neg hnf, hfold, if_neg (by simp)]
  exact ⟨rfl, by simpa using hred⟩

/-
Concrete states used as inputs of witnesses and counterexamples.
-/

/-- A state whose seven balls all move at unit speed. -/
def fastState : Game.GameState :=
  { isChargingShot := false, shotChargeProgress := 0,
    ballPositions := Params.ballsPositions, ballVelocities := fun _ => ⟨1, 0⟩ }

/-- The initial rack with the charge bar full and charging active. -/
def chargedState : Game.GameState :=
  { isChargingShot := true, shotChargeProgress := 1,
    ballPositions := Params.ballsPositions, ballVelocities := fun _ => ⟨0, 0⟩ }

/-
Claim C1.
-/

/-- C1 (counterexample): in the initial state every ball is below the
accuracy threshold — so at least one ball has length below accurance — yet
isFreeze returns false, refuting the claim that isFreeze returns true
exactly when some ball is below the threshold. -/
theorem isFreeze_some_slow_cex :
    (∃ i : Fin 7, (Game.initState.ballVelocities i).length < Params.accurance) ∧
    ¬ Game.isFreeze Game.initState.ballVelocities := by
  have h0 : (Game.initState.ballVelocities 0).length < Params.accurance := by
    have hv : Game.initState.ballVelocities 0 = ⟨0, 0⟩ := rfl
    rw [hv, Vector2.length_lt_iff _ (by norm_num [Params.accurance])]
    norm_num [Vector2.norm, Params.accurance]
  exact ⟨⟨0, h0⟩, fun hf => hf 0 h0⟩

/-- C1 (amended): isFreeze returns true iff no ball is below the accuracy
threshold, i.e. every ball has length at least accurance; and whenever
isFreeze holds, update skips the physics step entirely: physicLoop is the
identity, so positions and velocities are untouched and only charging
proceeds. -/
theorem isFreeze_iff_no_slow_ball (s : Game.GameState) (dt : ℝ) :
    (Game.isFreeze s.ballVelocities ↔
      ∀ i : Fin 7, Params.accurance ≤ (s.ballVelocities i).length) ∧
    (Game.isFreeze s.ballVelocities → Game.physicLoop dt s = s) := by
  constructor
  · unfold Game.isFreeze
    exact forall_congr' fun i => not_lt
  · intro h
    unfold Game.physicLoop
    rw [if_pos h]

/-- Witness for C1's amended theorem at a concrete all-fast state. -/
theorem isFreeze_iff_no_slow_ball_witness :
    Game.isFreeze fastState.ballVelocities ∧ Game.physicLoop 1 fastState = fastState := by
  have hf : Game.isFreeze fastState.ballVelocities := by
    intro i
    have hv : fastState.ballVelocities i = ⟨1, 0⟩ := rfl
    rw [hv, not_lt, Vector2.le_length_iff _ (by norm_num [Params.accurance])]
    norm_num [Vector2.norm, Params.accurance]
  exact ⟨hf, (isFreeze_iff_no_slow_ball fastState 1).2 hf⟩

/-
Claim C4.
-/

/-- C4: the launch rule of mouseButtonReleased: when the cue ball is slower
than 0.01 its velocity becomes the normalized direction from the cue to the
release point scaled by impulse times the charge progress at release; when it
is at least 0.01 the velocity is unchanged; in both cases charging stops and
the progress resets to 0. -/
theorem mouseButtonReleased_launch_rule (s : Game.GameState) (x y : ℝ) :
    ((s.ballVelocities 0).length < 0.01 →
      (Game.mouseButtonReleased x y s).ballVelocities 0 =
        (Vector2.normolize ⟨x - (s.ballPositions 0).x, y - (s.ballPositions 0).y⟩) *
          (Game.impulse * s.shotChargeProgress)) ∧
    (0.01 ≤ (s.ballVelocities 0).length →
      (Game.mouseButtonReleased x y s).ballVelocities 0 = s.ballVelocities 0) ∧
    (Game.mouseButtonReleased x y s).isChargingShot = false ∧
    (Game.mouseButtonReleased x y s).shotChargeProgress = 0 := by
  refine ⟨fun h => ?_, fun h => ?_, rfl, rfl⟩
  · unfold Game.mouseButtonReleased
    dsimp only
    rw [if_pos h]
    exact Function.update_same 0 _ _
  · unfold Game.mouseButtonReleased
    dsimp only
    rw [if_neg (not_lt.2 h)]

/-- Witness for C4 at the fully charged initial rack, released toward (1,0):
the cue ball receives velocity (6, 0). -/
theorem mouseButtonReleased_launch_rule_witness :
    (chargedState.ballVelocities 0).length < 0.01 ∧
    (Game.mouseButtonReleased 1 0 chargedState).ballVelocities 0 = ⟨6, 0⟩ := by
  have h : (chargedState.ballVelocities 0).length < 0.01 := by
    have hv : chargedState.ballVelocities 0 = ⟨0, 0⟩ := rfl
    rw [hv, Vector2.length_lt_iff _ (by norm_num)]
    norm_num [Vector2.norm]
  refine ⟨h, ?_⟩
  have hmain := (mouseButtonReleased_launch_rule chargedState 1 0).1 h
  rw [hmain]
  have hx : (chargedState.ballPositions 0).x = -0.3 * 15 := rfl
  have hy : (chargedState.ballPositions 0).y = 0 := rfl
  have hdir : (⟨1 - (chargedState.ballPositions 0).x,
      0 - (chargedState.ballPositions 0).y⟩ : Vector2) = ⟨5.5, 0⟩ := by
    rw [hx, hy]
    norm_num [Vector2.mk.injEq]
  rw [hdir]
  have hlen : (⟨5.5, 0⟩ : Vector2).length = 5.5 :=
    Vector2.length_eq _ (by norm_num) (by norm_num [Vector2.norm])
  have hnp : (⟨5.5, 0⟩ : Vector2).normolize = ⟨1, 0⟩ := by
    unfold Vector2.normolize
    rw [hlen]
    norm_num [Vector2.mk.injEq]
  have hpr : chargedState.shotChargeProgress = 1 := rfl
  rw [hnp, Vector2.smul_def, hpr]
  norm_num [Game.impulse, Vector2.mk.injEq]

/-
Claim C7.
-/

/-- C7: at every reachable observation point shotChargeProgress lies in
[0, 1]; and update changes it exactly by the clamped charging rule — when
isChargingShot holds it becomes min (progress + dt / chargeTime) 1, and
otherwise update leaves it unchanged. -/
theorem shotChargeProgress_clamped (s : Game.GameState) (hs : Game.Reachable s) :
    (0 ≤ s.shotChargeProgress ∧ s.shotChargeProgress ≤ 1) ∧
    (∀ (s' : Game.GameState) (dt : ℝ),
      (Game.update dt s').shotChargeProgress =
        if s'.isChargingShot then min (s'.shotChargeProgress + dt / Params.chargeTime) 1
        else s'.shotChargeProgress) := by
  refine ⟨?_, fun s' dt => Game.update_progress dt s'⟩
  induction hs with
  | start => norm_num [Game.initState]
  | tick s dt hdt hs ih =>
    rw [Game.update_progress]
    by_cases h : s.isChargingShot
    · rw [if_pos h]
      have h1 : 0 ≤ dt / Params.chargeTime :=
        div_nonneg hdt (by norm_num [Params.chargeTime])
      exact ⟨le_min (by linarith [ih.1]) zero_le_one, min_le_right _ _⟩
    · rw [if_neg h]
      exact ih
  | press s x y hs ih => exact ih
  | release s x y hs ih =>
    constructor <;> norm_num [Game.mouseButtonReleased]

/-- Witness for C7 at the reachable initial state. -/
theorem shotChargeProgress_clamped_witness :
    0 ≤ Game.initState.shotChargeProgress ∧ Game.initState.shotChargeProgress ≤ 1 :=
  (shotChargeProgress_clamped Game.initState Game.Reachable.start).1

/-
Claim C10.
-/

/-- C10: in a state where all seven balls are below the accuracy threshold,
isFreeze is nevertheless false, and update leaves every ball position and
velocity unchanged: the per-ball loop skips each ball and friction skips them
too. -/
theorem all_slow_update_is_motionless (s : Game.GameState) (dt : ℝ)
    (h : ∀ i : Fin 7, (s.ballVelocities i).length < Params.accurance) :
    ¬ Game.isFreeze s.ballVelocities ∧
    (Game.update dt s).ballPositions = s.ballPositions ∧
    (Game.update dt s).ballVelocities = s.ballVelocities :=
  ⟨fun hf => hf 0 (h 0), (Game.update_all_slow s dt h).1, (Game.update_all_slow s dt h).2⟩

/-- Witness for C10 at the all-resting initial state. -/
theorem all_slow_update_is_motionless_witness :
    (∀ i : Fin 7, (Game.initState.ballVelocities i).length < Params.accurance) ∧
    (Game.update 1 Game.initState).ballPositions = Game.initState.ballPositions := by
  have h : ∀ i : Fin 7, (Game.initState.ballVelocities i).length < Params.accurance := by
    intro i
    have hv : Game.initState.ballVelocities i = ⟨0, 0⟩ := rfl
    rw [hv, Vector2.length_lt_iff _ (by norm_num [Params.accurance])]
    norm_num [Vector2.norm, Params.accurance]
  exact ⟨h, (all_slow_update_is_motionless Game.initState 1 h).2.1⟩

/-
Componentwise projection lemmas for the vector operations, and further
length facts used by the collision algebra.
-/

theorem Vector2.sub_x (a b : Vector2) : (a - b).x = a.x - b.x := rfl

theorem Vector2.sub_y (a b : Vector2) : (a - b).y = a.y - b.y := rfl

theorem Vector2.add_x (a b : Vector2) : (a + b).x = a.x + b.x := rfl

theorem Vector2.add_y (a b : Vector2) : (a + b).y = a.y + b.y := rfl

theorem Vector2.smul_x (v : Vector2) (s : ℝ) : (v * s).x = v.x * s := rfl

theorem Vector2.smul_y (v : Vector2) (s : ℝ) : (v * s).y = v.y * s := rfl

theorem Vector2.mul_self_length (v : Vector2) : v.length * v.length = v.norm := by
  unfold Vector2.length
  exact Real.mul_self_sqrt v.norm_nonneg

/-- For two distinct points the difference vector has positive squared
length, and the normalized difference is a unit vector. -/
theorem Vector2.norm_pos_of_ne {a b : Vector2} (h : a ≠ b) : 0 < (b - a).norm := by
  have hne : (b - a).x ≠ 0 ∨ (b - a).y ≠ 0 := by
    by_contra hc
    push_neg at hc
    rcases hc with ⟨hx, hy⟩
    rw [Vector2.sub_x] at hx
    rw [Vector2.sub_y] at hy
    exact h (Vector2.ext (by linarith) (by linarith))
  unfold Vector2.norm
  rcases hne with hx | hx
  · nlinarith [mul_self_nonneg (b - a).y, mul_self_pos.2 hx]
  · nlinarith [mul_self_nonneg (b - a).x, mul_self_pos.2 hx]

theorem Vector2.normolize_unit {a b : Vector2} (h : a ≠ b) :
    ((b - a).normolize).x * ((b - a).normolize).x +
      ((b - a).normolize).y * ((b - a).normolize).y = 1 := by
  have hd := Vector2.norm_pos_of_ne h
  unfold Vector2.normolize
  dsimp only
  rw [div_mul_div_comm, div_mul_div_comm, div_add_div_same, Vector2.mul_self_length]
  rw [show (b - a).x * (b - a).x + (b - a).y * (b - a).y = (b - a).norm from rfl]
  exact div_self (ne_of_gt hd)

/-
Claim C2.
-/

/-- C2: for a colliding pair with distinct positions, recalculateVelocities
preserves the sum of squared speeds of the two balls. -/
theorem recalculateVelocities_conserves_energy (pos vel : Fin 7 → Vector2) (i j : Fin 7)
    (h : pos i ≠ pos j) :
    (Game.recalculateVelocities pos vel i j i).norm +
      (Game.recalculateVelocities pos vel i j j).norm =
      (vel i).norm + (vel j).norm := by
  have hij : i ≠ j := fun e => h (by rw [e])
  have hunit := Vector2.normolize_unit h
  simp only [Game.recalculateVelocities, Function.update_same, Function.update_noteq hij,
    Vector2.dot, Vector2.norm, Vector2.add_x, Vector2.add_y, Vector2.sub_x, Vector2.sub_y,
    Vector2.smul_x, Vector2.smul_y]
  set nx := ((pos j - pos i).normolize).x
  set ny := ((pos j - pos i).normolize).y
  linear_combination (2 * (((vel j).x * nx + (vel j).y * ny) -
    ((vel i).x * nx + (vel i).y * ny)) ^ 2) * hunit

/-- Witness for C2 at the initial rack: balls 0 and 1 sit at distinct
positions and the invariant holds there. -/
theorem recalculateVelocities_conserves_energy_witness :
    Game.initState.ballPositions 0 ≠ Game.initState.ballPositions 1 ∧
    (Game.recalculateVelocities Game.initState.ballPositions
        Game.initState.ballVelocities 0 1 0).norm +
      (Game.recalculateVelocities Game.initState.ballPositions
        Game.initState.ballVelocities 0 1 1).norm =
      (Game.initState.ballVelocities 0).norm + (Game.initState.ballVelocities 1).norm := by
  have h : Game.initState.ballPositions 0 ≠ Game.initState.ballPositions 1 := by
    have h0 : Game.initState.ballPositions 0 = ⟨-0.3 * 15, 0⟩ := rfl
    have h1 : Game.initState.ballPositions 1 = ⟨0.2 * 15, 0⟩ := rfl
    rw [h0, h1]
    intro he
    have hx := congrArg Vector2.x he
    norm_num at hx
  exact ⟨h, recalculateVelocities_conserves_energy _ _ 0 1 h⟩

/-
Claim C9.
-/

/-- Modelled from the claim wording for comparison with the source: pair
resolution written with the true perpendicular t = (-n.y, n.x) of the unit
normal n — tangential parts t * (v dot t), exchanged normal components. -/
def recalcVelocitiesPerp (pos vel : Fin 7 → Vector2) (subject target : Fin 7) :
    Fin 7 → Vector2 :=
  let dir := (pos target - pos subject).normolize
  let t : Vector2 := ⟨-dir.y, dir.x⟩
  Function.update (Function.update vel subject
      (t * ((vel subject).dot t) + dir * ((vel target).dot dir)))
    target (t * ((vel target).dot t) + dir * ((vel subject).dot dir))

/-- Auxiliary identity: for a unit normal, subtracting the normal projection
agrees componentwise with projecting on the true perpendicular. -/
theorem perp_component_aux (nx ny vx vy c : ℝ) (hunit : nx * nx + ny * ny = 1) :
    vx - nx * (vx * nx + vy * ny) + nx * c = -ny * (vx * -ny + vy * nx) + nx * c := by
  linear_combination (-vx) * hunit

/-- C9: for distinct positions the velocities produced by
recalculateVelocities are exactly the corrected-perpendicular ones — the
subject receives its tangential remainder v - n (v dot n) plus the target's
normal component, and the whole update coincides with the formulation using
the true perpendicular (-n.y, n.x); the dead tan variable has no effect. -/
theorem recalculateVelocities_eq_perp_formulation (pos vel : Fin 7 → Vector2) (i j : Fin 7)
    (h : pos i ≠ pos j) :
    (Game.recalculateVelocities pos vel i j i =
      (vel i - (pos j - pos i).normolize * ((vel i).dot ((pos j - pos i).normolize))) +
        (pos j - pos i).normolize * ((vel j).dot ((pos j - pos i).normolize))) ∧
    Game.recalculateVelocities pos vel i j = recalcVelocitiesPerp pos vel i j := by
  have hij : i ≠ j := fun e => h (by rw [e])
  have hunit := Vector2.normolize_unit h
  constructor
  · simp only [Game.recalculateVelocities, Function.update_same, Function.update_noteq hij]
  · funext k
    by_cases hki : k = i
    · subst hki
      simp only [Game.recalculateVelocities, recalcVelocitiesPerp,
        Function.update_same, Function.update_noteq hij]
      ext
      · simp only [Vector2.dot, Vector2.add_x, Vector2.sub_x, Vector2.smul_x]
        exact perp_component_aux _ _ _ _ _ hunit
      · simp only [Vector2.dot, Vector2.add_y, Vector2.sub_y, Vector2.smul_y]
        set nx := ((pos j - pos k).normolize).x
        set ny := ((pos j - pos k).normolize).y
        linear_combination (-(vel k).y) * hunit
    · by_cases hkj : k = j
      · subst hkj
        simp only [Game.recalculateVelocities, recalcVelocitiesPerp, Function.update_same]
        ext
        · simp only [Vector2.dot, Vector2.add_x, Vector2.sub_x, Vector2.smul_x]
          exact perp_component_aux _ _ _ _ _ hunit
        · simp only [Vector2.dot, Vector2.add_y, Vector2.sub_y, Vector2.smul_y]
          set nx := ((pos k - pos i).normolize).x
          set ny := ((pos k - pos i).normolize).y
          linear_combination (-(vel k).y) * hunit
      · simp only [Game.recalculateVelocities, recalcVelocitiesPerp,
          Function.update_noteq hki, Function.update_noteq hkj]

/-- Witness for C9 at the initial rack with balls 0 and 1. -/
theorem recalculateVelocities_eq_perp_formulation_witness :
    Game.initState.ballPositions 0 ≠ Game.initState.ballPositions 1 ∧
    Game.recalculateVelocities Game.initState.ballPositions
        Game.initState.ballVelocities 0 1 =
      recalcVelocitiesPerp Game.initState.ballPositions
        Game.initState.ballVelocities 0 1 := by
  have h : Game.initState.ballPositions 0 ≠ Game.initState.ballPositions 1 := by
    have h0 : Game.initState.ballPositions 0 = ⟨-0.3 * 15, 0⟩ := rfl
    have h1 : Game.initState.ballPositions 1 = ⟨0.2 * 15, 0⟩ := rfl
    rw [h0, h1]
    intro he
    have hx := congrArg Vector2.x he
    norm_num at hx
  exact ⟨h, (recalculateVelocities_eq_perp_formulation _ _ 0 1 h).2⟩

/-
Claim C3.
-/

/-- A state with all balls at rest and the cue ball parked exactly on the
top-right pocket position. -/
def restAtPocketState : Game.GameState :=
  { isChargingShot := false, shotChargeProgress := 0,
    ballPositions := Function.update Params.ballsPositions 0 ⟨7.5, 4⟩,
    ballVelocities := fun _ => ⟨0, 0⟩ }

/-- C3 (counterexample): the cue ball's candidate end position satisfies the
pocket test, yet update performs no rack reset, because the resting cue ball
is skipped by the per-ball speed guard before the pocket test is reached. -/
theorem cuePocket_no_reset_cex :
    Game.inPocket (Game.ballEndPos (1/60) (restAtPocketState.ballPositions 0)
      (restAtPocketState.ballVelocities 0)) ∧
    (Game.update (1/60) restAtPocketState).ballPositions 0 ≠ Params.ballsPositions 0 := by
  have hp0 : restAtPocketState.ballPositions 0 = ⟨7.5, 4⟩ := rfl
  have hv0 : restAtPocketState.ballVelocities 0 = ⟨0, 0⟩ := rfl
  constructor
  · refine ⟨⟨0.5 * Params.width, 0.5 * Params.height⟩, by simp [Params.pocketsPositions], ?_⟩
    rw [Vector2.length_le_iff _ (by norm_num [Params.pocketRadius, Params.ballRadius])]
    rw [hp0, hv0]
    norm_num [Game.ballEndPos, Vector2.norm, Vector2.sub_x, Vector2.sub_y,
      Params.pocketRadius, Params.ballRadius, Params.width, Params.height]
  · have h : ∀ i : Fin 7, (restAtPocketState.ballVelocities i).length < Params.accurance := by
      intro i
      have hv : restAtPocketState.ballVelocities i = ⟨0, 0⟩ := rfl
      rw [hv, Vector2.length_lt_iff _ (by norm_num [Params.accurance])]
      norm_num [Vector2.norm, Params.accurance]
    rw [(Game.update_all_slow restAtPocketState (1/60) h).1, hp0]
    intro he
    have hx := congrArg Vector2.x he
    have hbx : (Params.ballsPositions 0).x = -0.3 * 15 := rfl
    rw [hbx] at hx
    norm_num at hx

/-- C3 (amended): in a tick that is not frozen and in which the cue ball is
strictly faster than the accuracy threshold, if the cue ball's candidate end
position satisfies the pocket test, then update performs the full rack
reset: every position returns to the parameter template and every velocity
becomes zero; the rest of the tick, friction included, is abandoned. -/
theorem cuePocket_resets_rack (s : Game.GameState) (dt : ℝ)
    (hnf : ¬ Game.isFreeze s.ballVelocities)
    (hv : Params.accurance < (s.ballVelocities 0).length)
    (hp : Game.inPocket (Game.ballEndPos dt (s.ballPositions 0) (s.ballVelocities 0))) :
    (Game.update dt s).ballPositions = Params.ballsPositions ∧
    (Game.update dt s).ballVelocities = fun _ => ⟨0, 0⟩ := by
  have hg : ¬((s.ballVelocities 0).length ≤ Params.accurance ∨
      (0 : Fin 7) ∈ ([] : List (Fin 7))) := by
    rintro (hle | hmem)
    · exact absurd hle (not_le.2 hv)
    · simp at hmem
  have step0 : Game.processBall dt
      { pos := s.ballPositions, vel := s.ballVelocities, skip := [], returned := false } 0 =
      { pos := Params.ballsPositions, vel := fun _ => ⟨0, 0⟩, skip := [],
        returned := true } := by
    unfold Game.processBall
    dsimp only
    rw [if_neg (by simp), if_neg hg, if_pos hp, if_pos rfl]
  have hfold : Game.loopResult dt s =
      { pos := Params.ballsPositions, vel := fun _ => ⟨0, 0⟩, skip := [],
        returned := true } := by
    unfold Game.loopResult Game.allIdx
    rw [List.foldl_cons, step0]
    exact Game.foldl_processBall_returned dt _ _ rfl
  rcases Game.update_balls dt s with ⟨hbp, hbv⟩
  rw [hbp, hbv]
  unfold Game.physicLoop
  rw [if_neg hnf, hfold, if_pos rfl]
  exact ⟨rfl, rfl⟩

/-- A state with all object balls at rest and the cue ball heading into the
top-right pocket at speed 6. -/
def cueTowardPocketState : Game.GameState :=
  { isChargingShot := false, shotChargeProgress := 0,
    ballPositions := Function.update Params.ballsPositions 0 ⟨7.0, 4⟩,
    ballVelocities := Function.update (fun _ => ⟨0, 0⟩) 0 ⟨6, 0⟩ }

/-- Witness for C3's amended theorem: one tick later the rack is reset. -/
theorem cuePocket_resets_rack_witness :
    ¬ Game.isFreeze cueTowardPocketState.ballVelocities ∧
    (Game.update (1/60) cueTowardPocketState).ballPositions = Params.ballsPositions ∧
    (Game.update (1/60) cueTowardPocketState).ballVelocities = fun _ => ⟨0, 0⟩ := by
  have hnf : ¬ Game.isFreeze cueTowardPocketState.ballVelocities := by
    intro hf
    have h1 : cueTowardPocketState.ballVelocities 1 = ⟨0, 0⟩ := rfl
    refine hf 1 ?_
    rw [h1, Vector2.length_lt_iff _ (by norm_num [Params.accurance])]
    norm_num [Vector2.norm, Params.accurance]
  have h0 : cueTowardPocketState.ballVelocities 0 = ⟨6, 0⟩ := rfl
  have hv : Params.accurance < (cueTowardPocketState.ballVelocities 0).length := by
    rw [h0, show (⟨6, 0⟩ : Vector2).length = 6 from
      Vector2.length_eq _ (by norm_num) (by norm_num [Vector2.norm])]
    norm_num [Params.accurance]
  have hp : Game.inPocket (Game.ballEndPos (1/60) (cueTowardPocketState.ballPositions 0)
      (cueTowardPocketState.ballVelocities 0)) := by
    refine ⟨⟨0.5 * Params.width, 0.5 * Params.height⟩, by simp [Params.pocketsPositions], ?_⟩
    have hq0 : cueTowardPocketState.ballPositions 0 = ⟨7.0, 4⟩ := rfl
    rw [Vector2.length_le_iff _ (by norm_num [Params.pocketRadius, Params.ballRadius])]
    rw [hq0, h0]
    norm_num [Game.ballEndPos, Vector2.norm, Vector2.sub_x, Vector2.sub_y,
      Params.pocketRadius, Params.ballRadius, Params.width, Params.height]
  rcases cuePocket_resets_rack cueTowardPocketState (1/60) hnf hv hp with ⟨h1, h2⟩
  exact ⟨hnf, h1, h2⟩

/-
Claim C5.
-/

/-- A state whose cue ball creeps at speed 0.005, below the launch
threshold, with the rack at its template positions and the bar charged. -/
def creepingCueState : Game.GameState :=
  { isChargingShot := true, shotChargeProgress := 1,
    ballPositions := Params.ballsPositions,
    ballVelocities := Function.update (fun _ => ⟨0, 0⟩) 0 ⟨0.005, 0⟩ }

/-- C5 (code bug): a release exactly at the cue ball position while the cue
is below the launch threshold.  The direction vector is zero, its length is
below the accuracy threshold, yet mouseButtonReleased does not ignore the
release: it normalizes the zero vector — a division by its zero length, NaN
in the C++ floats, the zero vector under the total real division used here —
and overwrites the cue velocity, so the velocity does not stay unchanged as
the claimed guard requires. -/
theorem mouseButtonReleased_zero_direction_bug :
    (creepingCueState.ballVelocities 0).length < 0.01 ∧
    (⟨-4.5 - (creepingCueState.ballPositions 0).x,
       0 - (creepingCueState.ballPositions 0).y⟩ : Vector2).length < Params.accurance ∧
    (Game.mouseButtonReleased (-4.5) 0 creepingCueState).ballVelocities 0 ≠
      creepingCueState.ballVelocities 0 := by
  have hv0 : creepingCueState.ballVelocities 0 = ⟨0.005, 0⟩ := rfl
  have h1 : (creepingCueState.ballVelocities 0).length < 0.01 := by
    rw [hv0, Vector2.length_lt_iff _ (by norm_num)]
    norm_num [Vector2.norm]
  have hd : (⟨-4.5 - (creepingCueState.ballPositions 0).x,
      0 - (creepingCueState.ballPositions 0).y⟩ : Vector2) = ⟨0, 0⟩ := by
    have hpx : (creepingCueState.ballPositions 0).x = -0.3 * 15 := rfl
    have hpy : (creepingCueState.ballPositions 0).y = 0 := rfl
    rw [hpx, hpy]
    norm_num [Vector2.mk.injEq]
  have h2 : (⟨-4.5 - (creepingCueState.ballPositions 0).x,
      0 - (creepingCueState.ballPositions 0).y⟩ : Vector2).length < Params.accurance := by
    rw [hd, Vector2.length_lt_iff _ (by norm_num [Params.accurance])]
    norm_num [Vector2.norm, Params.accurance]
  refine ⟨h1, h2, ?_⟩
  have hvel : (Game.mouseButtonReleased (-4.5) 0 creepingCueState).ballVelocities 0 =
      ⟨0, 0⟩ := by
    unfold Game.mouseButtonReleased
    dsimp only
    rw [if_pos h1, Function.update_same, hd]
    unfold Vector2.normolize
    rw [Vector2.smul_def]
    norm_num [Vector2.mk.injEq]
  rw [hvel, hv0]
  intro he
  have hx := congrArg Vector2.x he
  norm_num at hx

/-
Structural lemmas for claim C6: which balls one loop iteration can touch.
-/

theorem Vector2.length_zero : (⟨0, 0⟩ : Vector2).length = 0 :=
  Vector2.length_eq _ le_rfl (by norm_num [Vector2.norm])

theorem Game.reduceVelocity_zero (dt : ℝ) : Game.reduceVelocity dt ⟨0, 0⟩ = ⟨0, 0⟩ :=
  Game.reduceVelocity_slow dt _
    (by rw [Vector2.length_zero]; norm_num [Params.accurance])

/-- One search step keeps the accumulator either at the subject or at an
index whose end-position distance is below the collision diameter. -/
theorem Game.findClosestStep_spec (pos : Fin 7 → Vector2) (ep : Vector2) (subject : Fin 7)
    (acc : Fin 7 × ℝ) (i : Fin 7)
    (hacc : acc.1 = subject ∨ (ep - pos acc.1).length < 2 * Params.ballRadius) :
    (Game.findClosestStep pos ep subject acc i).1 = subject ∨
      (ep - pos (Game.findClosestStep pos ep subject acc i).1).length <
        2 * Params.ballRadius := by
  unfold Game.findClosestStep
  split_ifs with h1 h2 h3
  · exact hacc
  · exact Or.inr h2
  · exact hacc
  · exact hacc

/-- findClosestBall returns the subject itself or a ball whose distance to
the candidate end position is below 2r. -/
theorem Game.findClosestBall_spec (pos : Fin 7 → Vector2) (ep : Vector2) (subject : Fin 7) :
    Game.findClosestBall pos ep subject = subject ∨
      (ep - pos (Game.findClosestBall pos ep subject)).length < 2 * Params.ballRadius := by
  unfold Game.findClosestBall
  have key : ∀ (l : List (Fin 7)) (acc : Fin 7 × ℝ),
      (acc.1 = subject ∨ (ep - pos acc.1).length < 2 * Params.ballRadius) →
      ((l.foldl (Game.findClosestStep pos ep subject) acc).1 = subject ∨
        (ep - pos (l.foldl (Game.findClosestStep pos ep subject) acc).1).length <
          2 * Params.ballRadius) := by
    intro l
    induction l with
    | nil => intro acc hacc; exact hacc
    | cons a t ih =>
      intro acc hacc
      rw [List.foldl_cons]
      exact ih _ (Game.findClosestStep_spec pos ep subject acc a hacc)
  exact key Game.allIdx (subject, Game.infinity) (Or.inl rfl)

/-- A processed loop iteration either performs the cue-pocket rack reset, or
touches at most the subject a and one partner b: every other ball keeps its
position and velocity, the skip set only grows, and a partner different from
the subject is the closest-ball result, is recorded in the skip set, and
implies the subject was live (fast and not skipped). -/
theorem Game.processBall_step_facts (dt : ℝ) (st : Game.LoopState) (a : Fin 7)
    (hr : st.returned = false) :
    Game.processBall dt st a =
      { pos := Params.ballsPositions, vel := fun _ => ⟨0, 0⟩, skip := st.skip,
        returned := true } ∨
    ∃ b : Fin 7,
      (Game.processBall dt st a).returned = false ∧
      (∀ m : Fin 7, m ≠ a → m ≠ b →
        (Game.processBall dt st a).pos m = st.pos m ∧
        (Game.processBall dt st a).vel m = st.vel m) ∧
      (∀ m : Fin 7, m ∈ st.skip → m ∈ (Game.processBall dt st a).skip) ∧
      (b = a ∨
        (b ∈ (Game.processBall dt st a).skip ∧
         b = Game.findClosestBall st.pos (Game.ballEndPos dt (st.pos a) (st.vel a)) a ∧
         b ≠ a ∧ a ∉ st.skip)) := by
  by_cases hg : (st.vel a).length ≤ Params.accurance ∨ a ∈ st.skip
  · have hstep : Game.processBall dt st a = st := by
      unfold Game.processBall
      rw [if_neg (by simp [hr]), if_pos hg]
    refine Or.inr ⟨a, ?_, ?_, ?_, Or.inl rfl⟩
    · rw [hstep]; exact hr
    · intro m _ _; rw [hstep]; exact ⟨rfl, rfl⟩
    · intro m hm; rw [hstep]; exact hm
  · by_cases hpock : Game.inPocket (Game.ballEndPos dt (st.pos a) (st.vel a))
    · by_cases ha0 : a = (0 : Fin 7)
      · left
        unfold Game.processBall
        dsimp only
        rw [if_neg (by simp [hr]), if_neg hg, if_pos hpock, if_pos ha0]
      · have hstep : Game.processBall dt st a =
            { st with pos := Function.update st.pos a ⟨Game.infinity, Game.infinity⟩,
                      vel := Function.update st.vel a ⟨0, 0⟩ } := by
          unfold Game.processBall
          dsimp only
          rw [if_neg (by simp [hr]), if_neg hg, if_pos hpock, if_neg ha0]
        refine Or.inr ⟨a, ?_, ?_, ?_, Or.inl rfl⟩
        · rw [hstep]; exact hr
        · intro m hma _
          rw [hstep]
          exact ⟨Function.update_noteq hma _ _, Function.update_noteq hma _ _⟩
        · intro m hm; rw [hstep]; exact hm
    · by_cases hhit : Game.isBorderCollesionHit (Game.ballEndPos dt (st.pos a) (st.vel a))
      · have hstep : Game.processBall dt st a =
            { st with vel := (Function.update st.vel a
                (Game.isBorderCollesionVel (Game.ballEndPos dt (st.pos a) (st.vel a))
                  (st.vel a))) } := by
          unfold Game.processBall
          dsimp only
          rw [if_neg (by simp [hr]), if_neg hg, if_neg hpock, if_pos hhit]
        refine Or.inr ⟨a, ?_, ?_, ?_, Or.inl rfl⟩
        · rw [hstep]; exact hr
        · intro m hma _
          rw [hstep]
          exact ⟨rfl, Function.update_noteq hma _ _⟩
        · intro m hm; rw [hstep]; exact hm
      · by_cases hji : Game.findClosestBall st.pos
            (Game.ballEndPos dt (st.pos a) (st.vel a)) a = a
        · have hstep : Game.processBall dt st a =
              { st with pos := (Function.update st.pos a
                  (Game.ballEndPos dt (st.pos a) (st.vel a))) } := by
            unfold Game.processBall
            dsimp only
            rw [if_neg (by simp [hr]), if_neg hg, if_neg hpock, if_neg hhit, if_pos hji]
          refine Or.inr ⟨a, ?_, ?_, ?_, Or.inl rfl⟩
          · rw [hstep]; exact hr
          · intro m hma _
            rw [hstep]
            exact ⟨Function.update_noteq hma _ _, rfl⟩
          · intro m hm; rw [hstep]; exact hm
        · refine Or.inr ⟨Game.findClosestBall st.pos
            (Game.ballEndPos dt (st.pos a) (st.vel a)) a, ?_, ?_, ?_,
            Or.inr ⟨?_, rfl, hji, fun hmem => hg (Or.inr hmem)⟩⟩
          · unfold Game.processBall
            dsimp only
            rw [if_neg (by simp [hr]), if_neg hg, if_neg hpock, if_neg hhit, if_neg hji]
            exact hr
          · intro m hma hmb
            unfold Game.processBall
            dsimp only
            rw [if_neg (by simp [hr]), if_neg hg, if_neg hpock, if_neg hhit, if_neg hji]
            constructor
            · show Function.update (Function.update st.pos a _) _ _ m = st.pos m
              rw [Function.update_noteq hmb, Function.update_noteq hma]
            · show Game.recalculateVelocities st.pos st.vel a _ m = st.vel m
              simp only [Game.recalculateVelocities]
              rw [Function.update_noteq hmb, Function.update_noteq hma]
          · intro m hm
            unfold Game.processBall
            dsimp only
            rw [if_neg (by simp [hr]), if_neg hg, if_neg hpock, if_neg hhit, if_neg hji]
            exact List.mem_cons_of_mem _ (List.mem_cons_of_mem _ hm)
          · unfold Game.processBall
            dsimp only
            rw [if_neg (by simp [hr]), if_neg hg, if_neg hpock, if_neg hhit, if_neg hji]
            exact List.mem_cons_self _ _

/-- Fold invariant for claim C6: a ball parked at the sentinel with zero
velocity is never touched by the ball loop — provided every other ball's
candidate end position keeps the collision diameter 2r away from the
sentinel — unless the cue-pocket rack reset fires. -/
theorem Game.processBalls_sentinel_invariant (dt : ℝ) (pos0 vel0 : Fin 7 → Vector2)
    (k : Fin 7)
    (hguard : ∀ i : Fin 7, i ≠ k →
      2 * Params.ballRadius ≤
        (Game.ballEndPos dt (pos0 i) (vel0 i) - ⟨Game.infinity, Game.infinity⟩).length) :
    ∀ l : List (Fin 7), l.Nodup →
      ∀ st : Game.LoopState, st.returned = false →
        st.pos k = ⟨Game.infinity, Game.infinity⟩ → st.vel k = ⟨0, 0⟩ →
        (∀ m ∈ l, m ∉ st.skip → st.pos m = pos0 m ∧ st.vel m = vel0 m) →
        (((l.foldl (Game.processBall dt) st).pos k = ⟨Game.infinity, Game.infinity⟩ ∧
          (l.foldl (Game.processBall dt) st).vel k = ⟨0, 0⟩) ∨
         ((l.foldl (Game.processBall dt) st).returned = true ∧
          (l.foldl (Game.processBall dt) st).pos = Params.ballsPositions ∧
          (l.foldl (Game.processBall dt) st).vel = fun _ => ⟨0, 0⟩)) := by
  intro l
  induction l with
  | nil =>
    intro _ st hr hpk hvk _
    exact Or.inl ⟨hpk, hvk⟩
  | cons a t ih =>
    intro hnd st hr hpk hvk horig
    rw [List.foldl_cons]
    rcases List.nodup_cons.mp hnd with ⟨hat, hndt⟩
    by_cases hak : a = k
    · have hstep : Game.processBall dt st a = st := by
        apply Game.processBall_skip
        rw [hak, hvk, Vector2.length_zero]
        norm_num [Params.accurance]
      rw [hstep]
      exact ih hndt st hr hpk hvk (fun m hm hms => horig m (List.mem_cons_of_mem a hm) hms)
    · rcases Game.processBall_step_facts dt st a hr with hreset | ⟨b, hret, hunch, hsub, hb⟩
      · rw [hreset, Game.foldl_processBall_returned dt t _ rfl]
        exact Or.inr ⟨rfl, rfl, rfl⟩
      · have hbk : b ≠ k := by
          rcases hb with rfl | ⟨hbmem, hbeq, hba, hans⟩
          · exact hak
          · intro hbk'
            obtain ⟨hpa, hva⟩ := horig a (List.mem_cons_self a t) hans
            rcases Game.findClosestBall_spec st.pos
                (Game.ballEndPos dt (st.pos a) (st.vel a)) a with he | hlt
            · exact hba (hbeq.trans he)
            · rw [← hbeq, hbk', hpk, hpa, hva] at hlt
              exact absurd hlt (not_lt.2 (hguard a hak))
        have hk2 := hunch k (Ne.symm hak) (Ne.symm hbk)
        apply ih hndt _ hret (hk2.1.trans hpk) (hk2.2.trans hvk)
        intro m hm hms
        have hma : m ≠ a := fun e => hat (e ▸ hm)
        have hmb : m ≠ b := by
          intro e
          rcases hb with rfl | ⟨hbmem, _, _, _⟩
          · exact hma e
          · exact hms (e ▸ hbmem)
        have hmold : m ∉ st.skip := fun hmem => hms (hsub m hmem)
        obtain ⟨h1, h2⟩ := hunch m hma hmb
        obtain ⟨h3, h4⟩ := horig m (List.mem_cons_of_mem a hm) hmold
        exact ⟨h1.trans h3, h2.trans h4⟩

/-
Claim C6.
-/

/-- C6 (amended): once a non-cue ball is pocketed-out (parked at the
sentinel with zero velocity), an update in which every other ball's
candidate end position stays at least 2r away from the sentinel leaves it
exactly there with zero velocity — unless the cue-pocket rack reset fires
that tick, which restores the template rack and ends the rack. -/
theorem pocketed_ball_stays_at_sentinel (s : Game.GameState) (dt : ℝ) (k : Fin 7)
    (hk : k ≠ 0)
    (hpk : s.ballPositions k = ⟨Game.infinity, Game.infinity⟩)
    (hvk : s.ballVelocities k = ⟨0, 0⟩)
    (hguard : ∀ i : Fin 7, i ≠ k →
      2 * Params.ballRadius ≤
        (Game.ballEndPos dt (s.ballPositions i) (s.ballVelocities i) -
          ⟨Game.infinity, Game.infinity⟩).length) :
    ((Game.update dt s).ballPositions k = ⟨Game.infinity, Game.infinity⟩ ∧
     (Game.update dt s).ballVelocities k = ⟨0, 0⟩) ∨
    ((Game.update dt s).ballPositions = Params.ballsPositions ∧
     (Game.update dt s).ballVelocities = fun _ => ⟨0, 0⟩) := by
  rcases Game.update_balls dt s with ⟨hbp, hbv⟩
  rw [hbp, hbv]
  unfold Game.physicLoop
  by_cases hf : Game.isFreeze s.ballVelocities
  · rw [if_pos hf]
    exact Or.inl ⟨hpk, hvk⟩
  · rw [if_neg hf]
    unfold Game.loopResult
    have hinv := Game.processBalls_sentinel_invariant dt s.ballPositions s.ballVelocities k
      hguard Game.allIdx (by decide)
      { pos := s.ballPositions, vel := s.ballVelocities, skip := [], returned := false }
      rfl hpk hvk (fun m _ hm => ⟨rfl, rfl⟩)
    rcases hinv with ⟨hip, hiv⟩ | ⟨hret, hip, hiv⟩
    · by_cases hr : (Game.allIdx.foldl (Game.processBall dt)
          { pos := s.ballPositions, vel := s.ballVelocities, skip := [],
            returned := false }).returned
      · rw [if_pos hr]
        exact Or.inl ⟨hip, hiv⟩
      · rw [if_neg hr]
        refine Or.inl ⟨hip, ?_⟩
        show Game.reduceVelocities dt _ k = _
        unfold Game.reduceVelocities
        rw [hiv]
        exact Game.reduceVelocity_zero dt
    · rw [if_pos hret]
      exact Or.inr ⟨hip, hiv⟩

/-- A rack whose ball 1 is pocketed-out at the sentinel and whose other
balls rest at the table center. -/
def pocketedRestState : Game.GameState :=
  { isChargingShot := false, shotChargeProgress := 0,
    ballPositions := fun i => if i = 1 then ⟨Game.infinity, Game.infinity⟩ else ⟨0, 0⟩,
    ballVelocities := fun _ => ⟨0, 0⟩ }

/-- Witness for C6's amended theorem. -/
theorem pocketed_ball_stays_at_sentinel_witness :
    pocketedRestState.ballPositions 1 = ⟨Game.infinity, Game.infinity⟩ ∧
    pocketedRestState.ballVelocities 1 = ⟨0, 0⟩ ∧
    (((Game.update (1/60) pocketedRestState).ballPositions 1 =
        ⟨Game.infinity, Game.infinity⟩ ∧
      (Game.update (1/60) pocketedRestState).ballVelocities 1 = ⟨0, 0⟩) ∨
     ((Game.update (1/60) pocketedRestState).ballPositions = Params.ballsPositions ∧
      (Game.update (1/60) pocketedRestState).ballVelocities = fun _ => ⟨0, 0⟩)) := by
  have hpk : pocketedRestState.ballPositions 1 = ⟨Game.infinity, Game.infinity⟩ := rfl
  have hguard : ∀ i : Fin 7, i ≠ (1 : Fin 7) →
      2 * Params.ballRadius ≤
        (Game.ballEndPos (1/60) (pocketedRestState.ballPositions i)
          (pocketedRestState.ballVelocities i) -
            ⟨Game.infinity, Game.infinity⟩).length := by
    intro i hi
    have hp : pocketedRestState.ballPositions i = ⟨0, 0⟩ := if_neg hi
    have hv : pocketedRestState.ballVelocities i = ⟨0, 0⟩ := rfl
    rw [hp, hv, Vector2.le_length_iff _ (by norm_num [Params.ballRadius])]
    norm_num [Game.ballEndPos, Vector2.norm, Vector2.sub_x, Vector2.sub_y,
      Params.ballRadius, Game.infinity, Params.width, Params.height]
  exact ⟨hpk, rfl,
    pocketed_ball_stays_at_sentinel pocketedRestState (1/60) 1 (by decide) hpk rfl hguard⟩

/-
Numeric helper lemmas for evaluating the geometry at concrete states.
-/

theorem Vector2.not_length_lt (v : Vector2) {c : ℝ} (hc : 0 < c) (h : c ^ 2 ≤ v.norm) :
    ¬ v.length < c :=
  fun hlt => absurd ((v.length_lt_iff hc).1 hlt) (not_lt.2 h)

theorem Vector2.not_length_le (v : Vector2) {c : ℝ} (hc : 0 ≤ c) (h : c ^ 2 < v.norm) :
    ¬ v.length ≤ c :=
  fun hle => absurd ((v.length_le_iff hc).1 hle) (not_le.2 h)

/-- The candidate end position of a resting ball placed outside every pocket
band: the three concrete points used by the counterexamples are in no
pocket. -/
theorem notInPocket456 : ¬ Game.inPocket ⟨45.6, 46⟩ := by
  rintro ⟨q, hq, hle⟩
  simp only [Params.pocketsPositions, List.mem_cons, List.not_mem_nil, or_false] at hq
  rcases hq with rfl | rfl | rfl | rfl | rfl | rfl <;>
    exact absurd hle (Vector2.not_length_le _
      (by norm_num [Params.pocketRadius, Params.ballRadius])
      (by norm_num [Vector2.norm, Vector2.sub_x, Vector2.sub_y, Params.width,
        Params.height, Params.pocketRadius, Params.ballRadius]))

theorem notInPocket74 : ¬ Game.inPocket ⟨7.4, 0⟩ := by
  rintro ⟨q, hq, hle⟩
  simp only [Params.pocketsPositions, List.mem_cons, List.not_mem_nil, or_false] at hq
  rcases hq with rfl | rfl | rfl | rfl | rfl | rfl <;>
    exact absurd hle (Vector2.not_length_le _
      (by norm_num [Params.pocketRadius, Params.ballRadius])
      (by norm_num [Vector2.norm, Vector2.sub_x, Vector2.sub_y, Params.width,
        Params.height, Params.pocketRadius, Params.ballRadius]))

theorem notInPocket69 : ¬ Game.inPocket ⟨6.9, 0⟩ := by
  rintro ⟨q, hq, hle⟩
  simp only [Params.pocketsPositions, List.mem_cons, List.not_mem_nil, or_false] at hq
  rcases hq with rfl | rfl | rfl | rfl | rfl | rfl <;>
    exact absurd hle (Vector2.not_length_le _
      (by norm_num [Params.pocketRadius, Params.ballRadius])
      (by norm_num [Vector2.norm, Vector2.sub_x, Vector2.sub_y, Params.width,
        Params.height, Params.pocketRadius, Params.ballRadius]))

/-- The point (45.6, 46) is far outside both border bands. -/
theorem notHit456 : ¬ Game.isBorderCollesionHit ⟨45.6, 46⟩ := by
  rintro (hx | hy)
  · revert hx
    show ¬ (|(|(45.6 : ℝ)| - Params.width / 2)| ≤ Params.ballRadius + Params.accurance)
    rw [abs_of_nonneg (by norm_num : (0 : ℝ) ≤ 45.6),
        show (45.6 : ℝ) - Params.width / 2 = 38.1 by norm_num [Params.width],
        abs_of_nonneg (by norm_num : (0 : ℝ) ≤ 38.1)]
    norm_num [Params.ballRadius, Params.accurance]
  · revert hy
    show ¬ (|(|(46 : ℝ)| - Params.height / 2)| ≤ Params.ballRadius + Params.accurance)
    rw [abs_of_nonneg (by norm_num : (0 : ℝ) ≤ 46),
        show (46 : ℝ) - Params.height / 2 = 42 by norm_num [Params.height],
        abs_of_nonneg (by norm_num : (0 : ℝ) ≤ 42)]
    norm_num [Params.ballRadius, Params.accurance]

/-- The point (6.9, 0) is in neither border band. -/
theorem notHit69 : ¬ Game.isBorderCollesionHit ⟨6.9, 0⟩ := by
  rintro (hx | hy)
  · revert hx
    show ¬ (|(|(6.9 : ℝ)| - Params.width / 2)| ≤ Params.ballRadius + Params.accurance)
    rw [abs_of_nonneg (by norm_num : (0 : ℝ) ≤ 6.9),
        show (6.9 : ℝ) - Params.width / 2 = -0.6 by norm_num [Params.width],
        abs_of_nonpos (by norm_num : (-0.6 : ℝ) ≤ 0)]
    norm_num [Params.ballRadius, Params.accurance]
  · revert hy
    show ¬ (|(|(0 : ℝ)| - Params.height / 2)| ≤ Params.ballRadius + Params.accurance)
    rw [abs_zero,
        show (0 : ℝ) - Params.height / 2 = -4 by norm_num [Params.height],
        abs_of_nonpos (by norm_num : (-4 : ℝ) ≤ 0)]
    norm_num [Params.ballRadius, Params.accurance]

/-- The point (7.4, 0) lies in the x border band. -/
theorem bandX74 : Game.borderBandX ⟨7.4, 0⟩ := by
  show |(|(7.4 : ℝ)| - Params.width / 2)| ≤ Params.ballRadius + Params.accurance
  rw [abs_of_nonneg (by norm_num : (0 : ℝ) ≤ 7.4),
      show (7.4 : ℝ) - Params.width / 2 = -0.1 by norm_num [Params.width],
      abs_of_nonpos (by norm_num : (-0.1 : ℝ) ≤ 0)]
  norm_num [Params.ballRadius, Params.accurance]

/-- The point (7.4, 0) is not in the y border band. -/
theorem notBandY74 : ¬ Game.borderBandY ⟨7.4, 0⟩ := by
  show ¬ (|(|(0 : ℝ)| - Params.height / 2)| ≤ Params.ballRadius + Params.accurance)
  rw [abs_zero,
      show (0 : ℝ) - Params.height / 2 = -4 by norm_num [Params.height],
      abs_of_nonpos (by norm_num : (-4 : ℝ) ≤ 0)]
  norm_num [Params.ballRadius, Params.accurance]

/-- A state exhibiting the sentinel disturbance of claim C6: ball 1 is
pocketed-out at the sentinel (46, 46), ball 2 sits just outside at
(45.5, 46) heading toward it at speed 6, everything else rests at the table
center. -/
def sentinelHitState : Game.GameState :=
  { isChargingShot := false, shotChargeProgress := 0,
    ballPositions := fun i =>
      if i = 1 then ⟨Game.infinity, Game.infinity⟩
      else if i = 2 then ⟨45.5, 46⟩ else ⟨0, 0⟩,
    ballVelocities := fun i => if i = 2 then ⟨6, 0⟩ else ⟨0, 0⟩ }

/-- The closest-ball search of ball 2 in sentinelHitState selects the
pocketed-out ball 1 at the sentinel. -/
theorem findClosest_sentinelHit :
    Game.findClosestBall sentinelHitState.ballPositions ⟨45.6, 46⟩ 2 = 1 := by
  have hdz : ∀ i : Fin 7, sentinelHitState.ballPositions i = ⟨0, 0⟩ →
      ¬ (((⟨45.6, 46⟩ : Vector2) - sentinelHitState.ballPositions i).length <
        2 * Params.ballRadius) := by
    intro i hi
    rw [hi]
    exact Vector2.not_length_lt _ (by norm_num [Params.ballRadius])
      (by norm_num [Vector2.norm, Vector2.sub_x, Vector2.sub_y, Params.ballRadius])
  have hstepz : ∀ (i : Fin 7) (acc : Fin 7 × ℝ), ¬(i = 2) →
      ¬ (((⟨45.6, 46⟩ : Vector2) - sentinelHitState.ballPositions i).length <
        2 * Params.ballRadius) →
      Game.findClosestStep sentinelHitState.ballPositions ⟨45.6, 46⟩ 2 acc i = acc := by
    intro i acc hi hd
    unfold Game.findClosestStep
    rw [if_neg hi, if_neg hd]
  have hstepsubj : ∀ acc : Fin 7 × ℝ,
      Game.findClosestStep sentinelHitState.ballPositions ⟨45.6, 46⟩ 2 acc 2 = acc := by
    intro acc
    unfold Game.findClosestStep
    rw [if_pos rfl]
  have hd1 : ((⟨45.6, 46⟩ : Vector2) - sentinelHitState.ballPositions 1).length <
      2 * Params.ballRadius := by
    rw [show sentinelHitState.ballPositions 1 = ⟨Game.infinity, Game.infinity⟩ from rfl]
    rw [Vector2.length_lt_iff _ (by norm_num [Params.ballRadius])]
    norm_num [Vector2.norm, Vector2.sub_x, Vector2.sub_y, Params.ballRadius,
      Game.infinity, Params.width, Params.height]
  have hlt1 : (sentinelHitState.ballPositions 2 - sentinelHitState.ballPositions 1).length <
      Game.infinity := by
    rw [show sentinelHitState.ballPositions 1 = ⟨Game.infinity, Game.infinity⟩ from rfl,
        show sentinelHitState.ballPositions 2 = ⟨45.5, 46⟩ from rfl]
    rw [Vector2.length_lt_iff _ (by norm_num [Game.infinity, Params.width, Params.height])]
    norm_num [Vector2.norm, Vector2.sub_x, Vector2.sub_y, Game.infinity,
      Params.width, Params.height]
  have hs1 : Game.findClosestStep sentinelHitState.ballPositions ⟨45.6, 46⟩ 2
      ((2 : Fin 7), Game.infinity) 1 =
      ((1 : Fin 7),
        (sentinelHitState.ballPositions 2 - sentinelHitState.ballPositions 1).length) := by
    unfold Game.findClosestStep
    dsimp only
    rw [if_neg (by decide : ¬((1 : Fin 7) = 2)), if_pos hd1, if_pos hlt1]
  unfold Game.findClosestBall Game.allIdx
  rw [List.foldl_cons, hstepz 0 _ (by decide) (hdz 0 rfl)]
  rw [List.foldl_cons, hs1]
  rw [List.foldl_cons, hstepsubj _]
  rw [List.foldl_cons, hstepz 3 _ (by decide) (hdz 3 rfl)]
  rw [List.foldl_cons, hstepz 4 _ (by decide) (hdz 4 rfl)]
  rw [List.foldl_cons, hstepz 5 _ (by decide) (hdz 5 rfl)]
  rw [List.foldl_cons, hstepz 6 _ (by decide) (hdz 6 rfl)]
  rw [List.foldl_nil]

/-- Pair resolution of balls 2 and 1 in sentinelHitState: ball 2 stops, the
pocketed-out ball 1 receives the full velocity (6, 0). -/
theorem recalc_sentinelHit :
    Game.recalculateVelocities sentinelHitState.ballPositions
      sentinelHitState.ballVelocities 2 1 =
    Function.update (Function.update sentinelHitState.ballVelocities 2 ⟨0, 0⟩) 1
      ⟨6, 0⟩ := by
  unfold Game.recalculateVelocities
  rw [show sentinelHitState.ballPositions 1 = ⟨Game.infinity, Game.infinity⟩ from rfl,
      show sentinelHitState.ballPositions 2 = ⟨45.5, 46⟩ from rfl,
      show sentinelHitState.ballVelocities 1 = ⟨0, 0⟩ from rfl,
      show sentinelHitState.ballVelocities 2 = ⟨6, 0⟩ from rfl]
  rw [show ((⟨Game.infinity, Game.infinity⟩ : Vector2) - ⟨45.5, 46⟩) = ⟨0.5, 0⟩ by
    rw [Vector2.sub_def]
    norm_num [Vector2.mk.injEq, Game.infinity, Params.width, Params.height]]
  rw [show (⟨0.5, 0⟩ : Vector2).normolize = ⟨1, 0⟩ by
    unfold Vector2.normolize
    rw [show (⟨0.5, 0⟩ : Vector2).length = 0.5 from
      Vector2.length_eq _ (by norm_num) (by norm_num [Vector2.norm])]
    norm_num [Vector2.mk.injEq]]
  dsimp only
  funext m
  by_cases hm1 : m = 1
  · subst hm1
    rw [Function.update_same, Function.update_same]
    simp only [Vector2.dot, Vector2.smul_def, Vector2.sub_def, Vector2.add_def]
    norm_num [Vector2.mk.injEq]
  · rw [Function.update_noteq hm1, Function.update_noteq hm1]
    by_cases hm2 : m = 2
    · subst hm2
      rw [Function.update_same, Function.update_same]
      simp only [Vector2.dot, Vector2.smul_def, Vector2.sub_def, Vector2.add_def]
      norm_num [Vector2.mk.injEq]
    · rw [Function.update_noteq hm2, Function.update_noteq hm2]

/-- Ball 2's loop iteration in sentinelHitState: the pair resolution with the
pocketed-out ball 1 moves ball 1 to (46.2, 46) with velocity (6, 0). -/
theorem processBall_sentinelHit :
    Game.processBall (1/60)
      { pos := sentinelHitState.ballPositions, vel := sentinelHitState.ballVelocities,
        skip := [], returned := false } 2 =
      { pos := (Function.update (Function.update sentinelHitState.ballPositions 2
          ⟨45.4, 46⟩) 1 ⟨46.2, 46⟩),
        vel := (Function.update (Function.update sentinelHitState.ballVelocities 2
          ⟨0, 0⟩) 1 ⟨6, 0⟩),
        skip := [1, 2], returned := false } := by
  have hv2len : (sentinelHitState.ballVelocities 2).length = 6 := by
    rw [show sentinelHitState.ballVelocities 2 = ⟨6, 0⟩ from rfl]
    exact Vector2.length_eq _ (by norm_num) (by norm_num [Vector2.norm])
  have hg2 : ¬ ((sentinelHitState.ballVelocities 2).length ≤ Params.accurance ∨
      (2 : Fin 7) ∈ ([] : List (Fin 7))) := by
    rintro (hle | hmem)
    · rw [hv2len] at hle
      norm_num [Params.accurance] at hle
    · simp at hmem
  have hep : Game.ballEndPos (1/60) (⟨45.5, 46⟩ : Vector2) ⟨6, 0⟩ = ⟨45.6, 46⟩ := by
    unfold Game.ballEndPos
    norm_num [Vector2.mk.injEq]
  unfold Game.processBall
  dsimp only
  rw [if_neg (by simp), if_neg hg2]
  rw [show sentinelHitState.ballPositions 2 = ⟨45.5, 46⟩ from rfl,
      show sentinelHitState.ballVelocities 2 = ⟨6, 0⟩ from rfl, hep]
  rw [if_neg notInPocket456, if_neg notHit456, findClosest_sentinelHit]
  rw [if_neg (by decide : ¬((1 : Fin 7) = 2))]
  rw [show sentinelHitState.ballPositions 1 = ⟨Game.infinity, Game.infinity⟩ from rfl]
  rw [show ((⟨45.5, 46⟩ : Vector2) - ⟨Game.infinity, Game.infinity⟩).length = 0.5 from
    Vector2.length_eq _ (by norm_num)
      (by norm_num [Vector2.norm, Vector2.sub_x, Vector2.sub_y, Game.infinity,
        Params.width, Params.height])]
  rw [show ((⟨6, 0⟩ : Vector2)).length = 6 from
    Vector2.length_eq _ (by norm_num) (by norm_num [Vector2.norm])]
  rw [show Game.calculateTimeConflict 0.5 6 = -(1/60) by
    unfold Game.calculateTimeConflict
    norm_num [Params.ballRadius]]
  rw [recalc_sentinelHit]
  rw [show Function.update (Function.update sentinelHitState.ballVelocities 2
      (⟨0, 0⟩ : Vector2)) 1 ⟨6, 0⟩ 2 = ⟨0, 0⟩ from rfl,
      show Function.update (Function.update sentinelHitState.ballVelocities 2
      (⟨0, 0⟩ : Vector2)) 1 ⟨6, 0⟩ 1 = ⟨6, 0⟩ from rfl]
  simp only [Game.LoopState.mk.injEq, and_true]
  funext m
  by_cases hm1 : m = 1
  · subst hm1
    rw [Function.update_same, Function.update_same]
    ext
    · show Game.infinity + 6 * (1/60 - -(1/60)) = 46.2
      norm_num [Game.infinity, Params.width, Params.height]
    · show Game.infinity + 0 * (1/60 - -(1/60)) = 46
      norm_num [Game.infinity, Params.width, Params.height]
  · rw [Function.update_noteq hm1, Function.update_noteq hm1]
    by_cases hm2 : m = 2
    · subst hm2
      rw [Function.update_same, Function.update_same]
      ext
      · show (45.5 : ℝ) + 6 * -(1/60) + 0 * (1/60 - -(1/60)) = 45.4
        norm_num
      · show (46 : ℝ) + 0 * -(1/60) + 0 * (1/60 - -(1/60)) = 46
        norm_num
    · rw [Function.update_noteq hm2, Function.update_noteq hm2]

/-- C6 (counterexample): ball 1 is pocketed-out — parked at the sentinel
(46, 46) with zero velocity — yet one update later its position is no longer
the sentinel: ball 2's candidate end position comes within 2r of the
sentinel, the closest-ball search selects the pocketed ball, and the pair
resolution moves it and hands it velocity (6, 0). -/
theorem pocketed_ball_disturbed_cex :
    sentinelHitState.ballPositions 1 = ⟨Game.infinity, Game.infinity⟩ ∧
    sentinelHitState.ballVelocities 1 = ⟨0, 0⟩ ∧
    (Game.update (1/60) sentinelHitState).ballPositions 1 ≠
      ⟨Game.infinity, Game.infinity⟩ := by
  refine ⟨rfl, rfl, ?_⟩
  have hslow : ∀ i : Fin 7, sentinelHitState.ballVelocities i = ⟨0, 0⟩ →
      Game.processBall (1/60)
        { pos := sentinelHitState.ballPositions, vel := sentinelHitState.ballVelocities,
          skip := [], returned := false } i =
      { pos := sentinelHitState.ballPositions, vel := sentinelHitState.ballVelocities,
        skip := [], returned := false } := by
    intro i hi
    apply Game.processBall_skip
    show (sentinelHitState.ballVelocities i).length ≤ Params.accurance
    rw [hi, Vector2.length_zero]
    norm_num [Params.accurance]
  have hslow2 : ∀ i : Fin 7,
      (Function.update (Function.update sentinelHitState.ballVelocities 2
        (⟨0, 0⟩ : Vector2)) 1 ⟨6, 0⟩) i = ⟨0, 0⟩ →
      Game.processBall (1/60)
        { pos := (Function.update (Function.update sentinelHitState.ballPositions 2
            ⟨45.4, 46⟩) 1 ⟨46.2, 46⟩),
          vel := (Function.update (Function.update sentinelHitState.ballVelocities 2
            ⟨0, 0⟩) 1 ⟨6, 0⟩),
          skip := [1, 2], returned := false } i =
      { pos := (Function.update (Function.update sentinelHitState.ballPositions 2
          ⟨45.4, 46⟩) 1 ⟨46.2, 46⟩),
        vel := (Function.update (Function.update sentinelHitState.ballVelocities 2
          ⟨0, 0⟩) 1 ⟨6, 0⟩),
        skip := [1, 2], returned := false } := by
    intro i hi
    apply Game.processBall_skip
    show (Function.update (Function.update sentinelHitState.ballVelocities 2
      (⟨0, 0⟩ : Vector2)) 1 ⟨6, 0⟩ i).length ≤ Params.accurance
    rw [hi, Vector2.length_zero]
    norm_num [Params.accurance]
  have hloop : Game.loopResult (1/60) sentinelHitState =
      { pos := (Function.update (Function.update sentinelHitState.ballPositions 2
          ⟨45.4, 46⟩) 1 ⟨46.2, 46⟩),
        vel := (Function.update (Function.update sentinelHitState.ballVelocities 2
          ⟨0, 0⟩) 1 ⟨6, 0⟩),
        skip := [1, 2], returned := false } := by
    unfold Game.loopResult Game.allIdx
    rw [List.foldl_cons, hslow 0 rfl]
    rw [List.foldl_cons, hslow 1 rfl]
    rw [List.foldl_cons, processBall_sentinelHit]
    rw [List.foldl_cons, hslow2 3 rfl]
    rw [List.foldl_cons, hslow2 4 rfl]
    rw [List.foldl_cons, hslow2 5 rfl]
    rw [List.foldl_cons, hslow2 6 rfl]
    rw [List.foldl_nil]
  have hnf : ¬ Game.isFreeze sentinelHitState.ballVelocities := by
    intro hf
    refine hf 0 ?_
    rw [show sentinelHitState.ballVelocities 0 = ⟨0, 0⟩ from rfl, Vector2.length_zero]
    norm_num [Params.accurance]
  have hfinal : (Game.update (1/60) sentinelHitState).ballPositions 1 = ⟨46.2, 46⟩ := by
    rw [(Game.update_balls (1/60) sentinelHitState).1]
    unfold Game.physicLoop
    rw [if_neg hnf, hloop, if_neg (by simp)]
    show Function.update (Function.update sentinelHitState.ballPositions 2
      (⟨45.4, 46⟩ : Vector2)) 1 ⟨46.2, 46⟩ 1 = ⟨46.2, 46⟩
    rw [Function.update_same]
  rw [hfinal]
  intro he
  have hx := congrArg Vector2.x he
  norm_num [Game.infinity, Params.width, Params.height] at hx

/-
Claim C8.
-/

/-- C8 (amended): for a live ball i — tick not yet returned, speed above the
threshold, not in the skip set — whose candidate end position is not
pocketed but fires a border band, that ball's loop iteration leaves every
position unchanged, negates exactly the velocity components whose band
fires, leaves other velocities alone and adds nothing to the skip set.  (The
ball can still be moved later in the same tick as the pair-collision target
of another ball.) -/
theorem border_collision_step_behavior (dt : ℝ) (st : Game.LoopState) (i : Fin 7)
    (hr : st.returned = false)
    (hv : Params.accurance < (st.vel i).length)
    (hs : i ∉ st.skip)
    (hnp : ¬ Game.inPocket (Game.ballEndPos dt (st.pos i) (st.vel i)))
    (hhit : Game.isBorderCollesionHit (Game.ballEndPos dt (st.pos i) (st.vel i))) :
    (Game.processBall dt st i).pos = st.pos ∧
    (Game.processBall dt st i).vel i =
      ⟨if Game.borderBandX (Game.ballEndPos dt (st.pos i) (st.vel i))
          then -(st.vel i).x else (st.vel i).x,
       if Game.borderBandY (Game.ballEndPos dt (st.pos i) (st.vel i))
          then -(st.vel i).y else (st.vel i).y⟩ ∧
    (∀ m : Fin 7, m ≠ i → (Game.processBall dt st i).vel m = st.vel m) ∧
    (Game.processBall dt st i).skip = st.skip := by
  have hg : ¬((st.vel i).length ≤ Params.accurance ∨ i ∈ st.skip) :=
    not_or.mpr ⟨not_le.2 hv, hs⟩
  have hstep : Game.processBall dt st i =
      { st with vel := (Function.update st.vel i
          (Game.isBorderCollesionVel (Game.ballEndPos dt (st.pos i) (st.vel i))
            (st.vel i))) } := by
    unfold Game.processBall
    dsimp only
    rw [if_neg (by simp [hr]), if_neg hg, if_neg hnp, if_pos hhit]
  rw [hstep]
  refine ⟨rfl, ?_, ?_, rfl⟩
  · show Function.update st.vel i _ i = _
    rw [Function.update_same]
    rfl
  · intro m hmi
    show Function.update st.vel i _ m = _
    rw [Function.update_noteq hmi]

/-- A state exhibiting the caveat of claim C8: ball 1 at (7.3, 0) is about
to bounce off the right border, ball 2 at (6.8, 0) is speeding into ball 1
during the same tick; everything else rests far away at (20, 20). -/
def reflectedHitState : Game.GameState :=
  { isChargingShot := false, shotChargeProgress := 0,
    ballPositions := fun i =>
      if i = 1 then ⟨7.3, 0⟩ else if i = 2 then ⟨6.8, 0⟩ else ⟨20, 20⟩,
    ballVelocities := fun i =>
      if i = 1 then ⟨6, 0⟩ else if i = 2 then ⟨6, 0⟩ else ⟨0, 0⟩ }

/-- The initial loop state of reflectedHitState. -/
def reflectedHitLoop : Game.LoopState :=
  { pos := reflectedHitState.ballPositions, vel := reflectedHitState.ballVelocities,
    skip := [], returned := false }

/-- Witness for C8's amended theorem: ball 1 of reflectedHitState bounces;
its own iteration keeps every position and flips its x velocity. -/
theorem border_collision_step_behavior_witness :
    Game.borderBandX (Game.ballEndPos (1/60) (reflectedHitLoop.pos 1)
      (reflectedHitLoop.vel 1)) ∧
    (Game.processBall (1/60) reflectedHitLoop 1).pos = reflectedHitLoop.pos ∧
    (Game.processBall (1/60) reflectedHitLoop 1).vel 1 = ⟨-6, 0⟩ := by
  have hep74 : Game.ballEndPos (1/60) (⟨7.3, 0⟩ : Vector2) ⟨6, 0⟩ = ⟨7.4, 0⟩ := by
    unfold Game.ballEndPos
    norm_num [Vector2.mk.injEq]
  have hepr : Game.ballEndPos (1/60) (reflectedHitLoop.pos 1) (reflectedHitLoop.vel 1) =
      ⟨7.4, 0⟩ := by
    rw [show reflectedHitLoop.pos 1 = ⟨7.3, 0⟩ from rfl,
        show reflectedHitLoop.vel 1 = ⟨6, 0⟩ from rfl, hep74]
  have hband : Game.borderBandX (Game.ballEndPos (1/60) (reflectedHitLoop.pos 1)
      (reflectedHitLoop.vel 1)) := by
    rw [hepr]
    exact bandX74
  have hnp : ¬ Game.inPocket (Game.ballEndPos (1/60) (reflectedHitLoop.pos 1)
      (reflectedHitLoop.vel 1)) := by
    rw [hepr]
    exact notInPocket74
  have hhit : Game.isBorderCollesionHit (Game.ballEndPos (1/60) (reflectedHitLoop.pos 1)
      (reflectedHitLoop.vel 1)) := by
    rw [hepr]
    exact Or.inl bandX74
  have hv : Params.accurance < (reflectedHitLoop.vel 1).length := by
    rw [show reflectedHitLoop.vel 1 = ⟨6, 0⟩ from rfl,
        show (⟨6, 0⟩ : Vector2).length = 6 from
          Vector2.length_eq _ (by norm_num) (by norm_num [Vector2.norm])]
    norm_num [Params.accurance]
  obtain ⟨hpos, hvel, -, -⟩ :=
    border_collision_step_behavior (1/60) reflectedHitLoop 1 rfl hv
      (List.not_mem_nil 1) hnp hhit
  refine ⟨hband, hpos, ?_⟩
  rw [hvel, hepr, if_pos bandX74, if_neg notBandY74,
      show reflectedHitLoop.vel 1 = ⟨6, 0⟩ from rfl]

/-- The closest-ball search of ball 2 in reflectedHitState selects the
just-reflected ball 1. -/
theorem findClosest_reflectedHit :
    Game.findClosestBall reflectedHitState.ballPositions ⟨6.9, 0⟩ 2 = 1 := by
  have hdz : ∀ i : Fin 7, reflectedHitState.ballPositions i = ⟨20, 20⟩ →
      ¬ (((⟨6.9, 0⟩ : Vector2) - reflectedHitState.ballPositions i).length <
        2 * Params.ballRadius) := by
    intro i hi
    rw [hi]
    exact Vector2.not_length_lt _ (by norm_num [Params.ballRadius])
      (by norm_num [Vector2.norm, Vector2.sub_x, Vector2.sub_y, Params.ballRadius])
  have hstepz : ∀ (i : Fin 7) (acc : Fin 7 × ℝ), ¬(i = 2) →
      ¬ (((⟨6.9, 0⟩ : Vector2) - reflectedHitState.ballPositions i).length <
        2 * Params.ballRadius) →
      Game.findClosestStep reflectedHitState.ballPositions ⟨6.9, 0⟩ 2 acc i = acc := by
    intro i acc hi hd
    unfold Game.findClosestStep
    rw [if_neg hi, if_neg hd]
  have hstepsubj : ∀ acc : Fin 7 × ℝ,
      Game.findClosestStep reflectedHitState.ballPositions ⟨6.9, 0⟩ 2 acc 2 = acc := by
    intro acc
    unfold Game.findClosestStep
    rw [if_pos rfl]
  have hd1 : ((⟨6.9, 0⟩ : Vector2) - reflectedHitState.ballPositions 1).length <
      2 * Params.ballRadius := by
    rw [show reflectedHitState.ballPositions 1 = ⟨7.3, 0⟩ from rfl]
    rw [Vector2.length_lt_iff _ (by norm_num [Params.ballRadius])]
    norm_num [Vector2.norm, Vector2.sub_x, Vector2.sub_y, Params.ballRadius]
  have hlt1 : (reflectedHitState.ballPositions 2 -
      reflectedHitState.ballPositions 1).length < Game.infinity := by
    rw [show reflectedHitState.ballPositions 1 = ⟨7.3, 0⟩ from rfl,
        show reflectedHitState.ballPositions 2 = ⟨6.8, 0⟩ from rfl]
    rw [Vector2.length_lt_iff _ (by norm_num [Game.infinity, Params.width, Params.height])]
    norm_num [Vector2.norm, Vector2.sub_x, Vector2.sub_y, Game.infinity,
      Params.width, Params.height]
  have hs1 : Game.findClosestStep reflectedHitState.ballPositions ⟨6.9, 0⟩ 2
      ((2 : Fin 7), Game.infinity) 1 =
      ((1 : Fin 7),
        (reflectedHitState.ballPositions 2 - reflectedHitState.ballPositions 1).length) := by
    unfold Game.findClosestStep
    dsimp only
    rw [if_neg (by decide : ¬((1 : Fin 7) = 2)), if_pos hd1, if_pos hlt1]
  unfold Game.findClosestBall Game.allIdx
  rw [List.foldl_cons, hstepz 0 _ (by decide) (hdz 0 rfl)]
  rw [List.foldl_cons, hs1]
  rw [List.foldl_cons, hstepsubj _]
  rw [List.foldl_cons, hstepz 3 _ (by decide) (hdz 3 rfl)]
  rw [List.foldl_cons, hstepz 4 _ (by decide) (hdz 4 rfl)]
  rw [List.foldl_cons, hstepz 5 _ (by decide) (hdz 5 rfl)]
  rw [List.foldl_cons, hstepz 6 _ (by decide) (hdz 6 rfl)]
  rw [List.foldl_nil]

/-- Ball 1's loop iteration in reflectedHitState: a border bounce that flips
its velocity to (-6, 0) and leaves every position where it was. -/
theorem processBall_reflect1 :
    Game.processBall (1/60) reflectedHitLoop 1 =
    { pos := reflectedHitState.ballPositions,
      vel := (Function.update reflectedHitState.ballVelocities 1 ⟨-6, 0⟩),
      skip := [], returned := false } := by
  have hg : ¬ ((reflectedHitState.ballVelocities 1).length ≤ Params.accurance ∨
      (1 : Fin 7) ∈ ([] : List (Fin 7))) := by
    rintro (hle | hmem)
    · rw [show reflectedHitState.ballVelocities 1 = ⟨6, 0⟩ from rfl,
          show (⟨6, 0⟩ : Vector2).length = 6 from
            Vector2.length_eq _ (by norm_num) (by norm_num [Vector2.norm])] at hle
      norm_num [Params.accurance] at hle
    · simp at hmem
  have hep74 : Game.ballEndPos (1/60) (⟨7.3, 0⟩ : Vector2) ⟨6, 0⟩ = ⟨7.4, 0⟩ := by
    unfold Game.ballEndPos
    norm_num [Vector2.mk.injEq]
  have hbv : Game.isBorderCollesionVel ⟨7.4, 0⟩ ⟨6, 0⟩ = ⟨-6, 0⟩ := by
    unfold Game.isBorderCollesionVel
    rw [if_pos bandX74, if_neg notBandY74]
  unfold reflectedHitLoop Game.processBall
  dsimp only
  rw [if_neg (by simp), if_neg hg]
  rw [show reflectedHitState.ballPositions 1 = ⟨7.3, 0⟩ from rfl,
      show reflectedHitState.ballVelocities 1 = ⟨6, 0⟩ from rfl, hep74]
  have hhit74 : Game.isBorderCollesionHit ⟨7.4, 0⟩ := Or.inl bandX74
  rw [if_neg notInPocket74, if_pos hhit74, hbv]

/-- Pair resolution of balls 2 and 1 in reflectedHitState after ball 1's
reflection: ball 2 takes (-6, 0), ball 1 takes (6, 0). -/
theorem recalc_reflectedHit :
    Game.recalculateVelocities reflectedHitState.ballPositions
      (Function.update reflectedHitState.ballVelocities 1 ⟨-6, 0⟩) 2 1 =
    Function.update (Function.update
      (Function.update reflectedHitState.ballVelocities 1 ⟨-6, 0⟩) 2 ⟨-6, 0⟩) 1
      ⟨6, 0⟩ := by
  unfold Game.recalculateVelocities
  rw [show reflectedHitState.ballPositions 1 = ⟨7.3, 0⟩ from rfl,
      show reflectedHitState.ballPositions 2 = ⟨6.8, 0⟩ from rfl,
      show (Function.update reflectedHitState.ballVelocities 1
        (⟨-6, 0⟩ : Vector2)) 1 = ⟨-6, 0⟩ from rfl,
      show (Function.update reflectedHitState.ballVelocities 1
        (⟨-6, 0⟩ : Vector2)) 2 = ⟨6, 0⟩ from rfl]
  rw [show ((⟨7.3, 0⟩ : Vector2) - ⟨6.8, 0⟩) = ⟨0.5, 0⟩ by
    rw [Vector2.sub_def]
    norm_num [Vector2.mk.injEq]]
  rw [show (⟨0.5, 0⟩ : Vector2).normolize = ⟨1, 0⟩ by
    unfold Vector2.normolize
    rw [show (⟨0.5, 0⟩ : Vector2).length = 0.5 from
      Vector2.length_eq _ (by norm_num) (by norm_num [Vector2.norm])]
    norm_num [Vector2.mk.injEq]]
  dsimp only
  funext m
  by_cases hm1 : m = 1
  · subst hm1
    rw [Function.update_same, Function.update_same]
    simp only [Vector2.dot, Vector2.smul_def, Vector2.sub_def, Vector2.add_def]
    norm_num [Vector2.mk.injEq]
  · rw [Function.update_noteq hm1, Function.update_noteq hm1]
    by_cases hm2 : m = 2
    · subst hm2
      rw [Function.update_same, Function.update_same]
      simp only [Vector2.dot, Vector2.smul_def, Vector2.sub_def, Vector2.add_def]
      norm_num [Vector2.mk.injEq]
    · rw [Function.update_noteq hm2, Function.update_noteq hm2]

/-- Ball 2's loop iteration after ball 1's reflection: the pair resolution
moves the reflected ball 1 from (7.3, 0) to (7.5, 0). -/
theorem processBall_reflect2 :
    Game.processBall (1/60)
      { pos := reflectedHitState.ballPositions,
        vel := (Function.update reflectedHitState.ballVelocities 1 ⟨-6, 0⟩),
        skip := [], returned := false } 2 =
      { pos := (Function.update (Function.update reflectedHitState.ballPositions 2
          ⟨6.5, 0⟩) 1 ⟨7.5, 0⟩),
        vel := (Function.update (Function.update
          (Function.update reflectedHitState.ballVelocities 1 ⟨-6, 0⟩) 2 ⟨-6, 0⟩) 1
          ⟨6, 0⟩),
        skip := [1, 2], returned := false } := by
  have hg : ¬ (((Function.update reflectedHitState.ballVelocities 1
      (⟨-6, 0⟩ : Vector2)) 2).length ≤ Params.accurance ∨
      (2 : Fin 7) ∈ ([] : List (Fin 7))) := by
    rintro (hle | hmem)
    · rw [show (Function.update reflectedHitState.ballVelocities 1
          (⟨-6, 0⟩ : Vector2)) 2 = ⟨6, 0⟩ from rfl,
          show (⟨6, 0⟩ : Vector2).length = 6 from
            Vector2.length_eq _ (by norm_num) (by norm_num [Vector2.norm])] at hle
      norm_num [Params.accurance] at hle
    · simp at hmem
  have hep69 : Game.ballEndPos (1/60) (⟨6.8, 0⟩ : Vector2) ⟨6, 0⟩ = ⟨6.9, 0⟩ := by
    unfold Game.ballEndPos
    norm_num [Vector2.mk.injEq]
  unfold Game.processBall
  dsimp only
  rw [if_neg (by simp), if_neg hg]
  rw [show reflectedHitState.ballPositions 2 = ⟨6.8, 0⟩ from rfl,
      show (Function.update reflectedHitState.ballVelocities 1
        (⟨-6, 0⟩ : Vector2)) 2 = ⟨6, 0⟩ from rfl, hep69]
  rw [if_neg notInPocket69, if_neg notHit69, findClosest_reflectedHit]
  rw [if_neg (by decide : ¬((1 : Fin 7) = 2))]
  rw [show reflectedHitState.ballPositions 1 = ⟨7.3, 0⟩ from rfl]
  rw [show ((⟨6.8, 0⟩ : Vector2) - ⟨7.3, 0⟩).length = 0.5 from
    Vector2.length_eq _ (by norm_num)
      (by norm_num [Vector2.norm, Vector2.sub_x, Vector2.sub_y])]
  rw [show ((⟨6, 0⟩ : Vector2)).length = 6 from
    Vector2.length_eq _ (by norm_num) (by norm_num [Vector2.norm])]
  rw [show Game.calculateTimeConflict 0.5 6 = -(1/60) by
    unfold Game.calculateTimeConflict
    norm_num [Params.ballRadius]]
  rw [recalc_reflectedHit]
  rw [show Function.update (Function.update
      (Function.update reflectedHitState.ballVelocities 1 (⟨-6, 0⟩ : Vector2)) 2
      ⟨-6, 0⟩) 1 ⟨6, 0⟩ 2 = ⟨-6, 0⟩ from rfl,
      show Function.update (Function.update
      (Function.update reflectedHitState.ballVelocities 1 (⟨-6, 0⟩ : Vector2)) 2
      ⟨-6, 0⟩) 1 ⟨6, 0⟩ 1 = ⟨6, 0⟩ from rfl]
  simp only [Game.LoopState.mk.injEq, and_true]
  funext m
  by_cases hm1 : m = 1
  · subst hm1
    rw [Function.update_same, Function.update_same]
    ext
    · show (7.3 : ℝ) + 6 * (1/60 - -(1/60)) = 7.5
      norm_num
    · show (0 : ℝ) + 0 * (1/60 - -(1/60)) = 0
      norm_num
  · rw [Function.update_noteq hm1, Function.update_noteq hm1]
    by_cases hm2 : m = 2
    · subst hm2
      rw [Function.update_same, Function.update_same]
      ext
      · show (6.8 : ℝ) + 6 * -(1/60) + -6 * (1/60 - -(1/60)) = 6.5
        norm_num
      · show (0 : ℝ) + 0 * -(1/60) + 0 * (1/60 - -(1/60)) = 0
        norm_num
    · rw [Function.update_noteq hm2, Function.update_noteq hm2]

/-- C8 (counterexample): ball 1's candidate end position fires the x border
band — so ball 1 is reflected and its own iteration does not advance it —
yet its position after the tick differs from its position before it: ball
2's pair resolution later in the same tick selects ball 1 as target and
moves it. -/
theorem border_reflected_ball_moved_cex :
    Game.borderBandX (Game.ballEndPos (1/60) (reflectedHitState.ballPositions 1)
      (reflectedHitState.ballVelocities 1)) ∧
    (Game.update (1/60) reflectedHitState).ballPositions 1 ≠
      reflectedHitState.ballPositions 1 := by
  constructor
  · rw [show reflectedHitState.ballPositions 1 = ⟨7.3, 0⟩ from rfl,
        show reflectedHitState.ballVelocities 1 = ⟨6, 0⟩ from rfl,
        show Game.ballEndPos (1/60) (⟨7.3, 0⟩ : Vector2) ⟨6, 0⟩ = ⟨7.4, 0⟩ from by
          unfold Game.ballEndPos
          norm_num [Vector2.mk.injEq]]
    exact bandX74
  · have hslow0 : Game.processBall (1/60) reflectedHitLoop 0 = reflectedHitLoop := by
      apply Game.processBall_skip
      show (reflectedHitState.ballVelocities 0).length ≤ Params.accurance
      rw [show reflectedHitState.ballVelocities 0 = ⟨0, 0⟩ from rfl, Vector2.length_zero]
      norm_num [Params.accurance]
    have hslow2 : ∀ i : Fin 7,
        (Function.update (Function.update
          (Function.update reflectedHitState.ballVelocities 1 (⟨-6, 0⟩ : Vector2)) 2
          ⟨-6, 0⟩) 1 ⟨6, 0⟩) i = ⟨0, 0⟩ →
        Game.processBall (1/60)
          { pos := (Function.update (Function.update reflectedHitState.ballPositions 2
              ⟨6.5, 0⟩) 1 ⟨7.5, 0⟩),
            vel := (Function.update (Function.update
              (Function.update reflectedHitState.ballVelocities 1 ⟨-6, 0⟩) 2 ⟨-6, 0⟩) 1
              ⟨6, 0⟩),
            skip := [1, 2], returned := false } i =
        { pos := (Function.update (Function.update reflectedHitState.ballPositions 2
            ⟨6.5, 0⟩) 1 ⟨7.5, 0⟩),
          vel := (Function.update (Function.update
            (Function.update reflectedHitState.ballVelocities 1 ⟨-6, 0⟩) 2 ⟨-6, 0⟩) 1
            ⟨6, 0⟩),
          skip := [1, 2], returned := false } := by
      intro i hi
      apply Game.processBall_skip
      show ((Function.update (Function.update
        (Function.update reflectedHitState.ballVelocities 1 (⟨-6, 0⟩ : Vector2)) 2
        ⟨-6, 0⟩) 1 ⟨6, 0⟩) i).length ≤ Params.accurance
      rw [hi, Vector2.length_zero]
      norm_num [Params.accurance]
    have hloop : Game.loopResult (1/60) reflectedHitState =
        { pos := (Function.update (Function.update reflectedHitState.ballPositions 2
            ⟨6.5, 0⟩) 1 ⟨7.5, 0⟩),
          vel := (Function.update (Function.update
            (Function.update reflectedHitState.ballVelocities 1 ⟨-6, 0⟩) 2 ⟨-6, 0⟩) 1
            ⟨6, 0⟩),
          skip := [1, 2], returned := false } := by
      unfold Game.loopResult Game.allIdx
      show List.foldl (Game.processBall (1/60)) reflectedHitLoop [0, 1, 2, 3, 4, 5, 6] = _
      rw [List.foldl_cons, hslow0]
      rw [List.foldl_cons, processBall_reflect1]
      rw [List.foldl_cons, processBall_reflect2]
      rw [List.foldl_cons, hslow2 3 rfl]
      rw [List.foldl_cons, hslow2 4 rfl]
      rw [List.foldl_cons, hslow2 5 rfl]
      rw [List.foldl_cons, hslow2 6 rfl]
      rw [List.foldl_nil]
    have hnf : ¬ Game.isFreeze reflectedHitState.ballVelocities := by
      intro hf
      refine hf 0 ?_
      rw [show reflectedHitState.ballVelocities 0 = ⟨0, 0⟩ from rfl, Vector2.length_zero]
      norm_num [Params.accurance]
    have hfinal : (Game.update (1/60) reflectedHitState).ballPositions 1 = ⟨7.5, 0⟩ := by
      rw [(Game.update_balls (1/60) reflectedHitState).1]
      unfold Game.physicLoop
      rw [if_neg hnf, hloop, if_neg (by simp)]
      show Function.update (Function.update reflectedHitState.ballPositions 2
        (⟨6.5, 0⟩ : Vector2)) 1 ⟨7.5, 0⟩ 1 = ⟨7.5, 0⟩
      rw [Function.update_same]
    rw [hfinal, show reflectedHitState.ballPositions 1 = ⟨7.3, 0⟩ from rfl]
    intro he
    have hx := congrArg Vector2.x he
    norm_num at hx
